import Mathlib

/-!
Shallow embedding of the query-orchestration pipeline of the persona RAG chatbot
(src/agent.py, src/router/tool_router.py, src/planner/tool_planner.py,
src/planner/persona_classifier.py, src/planner/query_rewriter.py,
src/planner/query_classifier.py).

Modelling conventions:
* Python floats are modelled as rationals (ℚ); `round(x, 2)` is modelled as
  round-half-to-even at two decimals, matching CPython's tie-breaking rule.
* External collaborators (the Gemini model handles, the Pinecone / Neo4j backed
  retrieval tools, and the stdlib JSON parse of free-form model text) are
  oracles: arbitrary functions packaged in the `Oracles` structure.  A model
  call either yields the response text or raises, which `Except` captures.
* Stateful execution with exceptions is modelled by the monad `M`: a computation
  yields either a value or a Python exception, together with the ordered list of
  observable events (model calls, router dispatches, tool invocations, reranker
  entry) it performed.  An exception truncates the remainder of the event trace,
  mirroring control flow in the source.
-/

/-- Intent taxonomy and metadata extracted by the query classifier
(src/models.py, class QueryMetadata). -/
structure QueryMetadata where
  intent : String
  keywords : List String
  question_is_graph_suitable : Bool
  themes : List String
deriving DecidableEq, Repr

/-- One entry of the ranked tool plan (src/models.py, class ToolPlanItem). -/
structure ToolPlanItem where
  tool_name : String
  estimated_coverage : ℚ
deriving DecidableEq, Repr

/-- Outcome of one tool invocation (src/models.py, class ToolResult). -/
structure ToolResult where
  tool_name : String
  success : Bool
  content : String
  estimated_coverage : ℚ := 0
deriving DecidableEq, Repr

/-- Python exceptions, split the way Agent.run's handlers split them:
google.api_core RetryError versus every other exception. -/
inductive PyExn where
  | retryError (msg : String)
  | other (msg : String)
deriving DecidableEq, Repr

/-- Observable events of a pipeline execution: a generate_content call on one of
the model handles, the router being asked for a tool name, the registered tool
function actually running, and entry into Agent._rerank_with_gemini. -/
inductive Event where
  | llmCall (model : String) (prompt : String)
  | routerCall (tool : String)
  | toolRun (tool : String)
  | rerankCall
deriving DecidableEq, Repr

/-- Result part of a computation: a value or a raised Python exception. -/
inductive MRes (α : Type) where
  | ok (a : α)
  | exn (e : PyExn)
deriving DecidableEq, Repr

/-- The pipeline monad: a result plus the ordered event trace produced. -/
def M (α : Type) : Type := MRes α × List Event

def M.pure {α : Type} (a : α) : M α := (MRes.ok a, [])

def M.bind {α β : Type} (m : M α) (k : α → M β) : M β :=
  match m.1 with
  | MRes.ok a => ((k a).1, m.2 ++ (k a).2)
  | MRes.exn e => (MRes.exn e, m.2)

def M.throw {α : Type} (e : PyExn) : M α := (MRes.exn e, [])

def M.emit (ev : Event) : M Unit := (MRes.ok (), [ev])

instance : Monad M where
  pure := M.pure
  bind := M.bind

theorem M.bind_mk_ok {α β : Type} (a : α) (evs : List Event) (k : α → M β) :
    M.bind (MRes.ok a, evs) k = ((k a).1, evs ++ (k a).2) := rfl

theorem M.bind_mk_exn {α β : Type} (e : PyExn) (evs : List Event) (k : α → M β) :
    M.bind (MRes.exn e, evs) k = (MRes.exn e, evs) := rfl

theorem M.pure_def {α : Type} (a : α) : M.pure a = (MRes.ok a, ([] : List Event)) := rfl

/-- Events of the second component of a bind are appended to those of the first;
if the first component raised, the continuation never runs. -/
theorem M.bind_events_subset {α β : Type} (m : M α) (k : α → M β) (ev : Event)
    (h1 : ev ∉ m.2) (h2 : ∀ a, ev ∉ (k a).2) : ev ∉ (M.bind m k).2 := by
  unfold M.bind
  cases hm : m.1 with
  | ok a =>
    simp only [hm, List.mem_append, not_or]
    exact ⟨h1, h2 a⟩
  | exn e => simpa [hm] using h1

/-- Events of the first component survive into the events of a bind. -/
theorem M.bind_events_mem {α β : Type} (m : M α) (k : α → M β) (ev : Event)
    (h : ev ∈ m.2) : ev ∈ (M.bind m k).2 := by
  unfold M.bind
  cases m.1 <;> simp [h]

/-- An apostrophe character, kept out of string literals. -/
def apos : String := String.singleton (Char.ofNat 39)

/-! ## Kernel-computable models of the Python string operations

Core String functions such as splitOn, trim and toLower are compiled but do not
reduce inside the kernel, so the Python string operations the pipeline uses are
modelled by structurally recursive functions on character lists. -/

/-- Whether the second list starts with the first. -/
def listBeginsWith : List Char → List Char → Bool
  | [], _ => true
  | _ :: _, [] => false
  | a :: as, b :: bs => a == b && listBeginsWith as bs

/-- Python str.lower(). -/
def pyLower (s : String) : String := String.mk (s.data.map Char.toLower)

/-- Python str.strip(): drop leading and trailing whitespace. -/
def pyStrip (s : String) : String :=
  String.mk (((s.data.dropWhile Char.isWhitespace).reverse.dropWhile Char.isWhitespace).reverse)

/-- Python sep.join(parts). -/
def joinWith (sep : String) : List String → String
  | [] => ""
  | [x] => x
  | x :: xs => x ++ sep ++ joinWith sep xs

/-- Python str.split(sep) on character lists, fuelled to stay structurally
recursive; acc holds the reversed current chunk. The fuel never runs out when
it starts at the length of the scanned list and the separator is nonempty. -/
def pySplitOnAuxF (sep : List Char) : Nat → List Char → List Char → List String
  | _, [], acc => [String.mk acc.reverse]
  | 0, l, acc => [String.mk (acc.reverse ++ l)]
  | fuel + 1, c :: rest, acc =>
    if listBeginsWith sep (c :: rest) then
      String.mk acc.reverse :: pySplitOnAuxF sep fuel ((c :: rest).drop sep.length) []
    else pySplitOnAuxF sep fuel rest (c :: acc)

/-- Python str.split(sep) for a nonempty separator (the only use in the
pipeline; Python raises on an empty separator). -/
def pySplitOn (s : String) (sep : String) : List String :=
  match sep.data with
  | [] => [s]
  | c0 :: crest => pySplitOnAuxF (c0 :: crest) s.data.length s.data []

/-- Python str.split() with no argument: the maximal nonblank runs; acc holds
the reversed current word. -/
def pySplitWsAux : List Char → List Char → List String
  | [], acc => if acc.isEmpty then [] else [String.mk acc.reverse]
  | c :: rest, acc =>
    if c.isWhitespace then
      if acc.isEmpty then pySplitWsAux rest []
      else String.mk acc.reverse :: pySplitWsAux rest []
    else pySplitWsAux rest (c :: acc)

def pySplitWs (l : List Char) : List String := pySplitWsAux l []

/-- Python str.capitalize(): first character upper, the rest lower. -/
def pyCapitalize (w : String) : String :=
  match w.data with
  | [] => ""
  | c :: rest => String.mk (Char.toUpper c :: rest.map Char.toLower)

/-! ## ToolPlanner (src/planner/tool_planner.py) -/

/-- One entry of a persona's tool-preference table, as loaded from
config/persona_tool_map.yml (the file itself is data outside src). -/
structure PersonaPref where
  tool_name : String
  weight : ℚ
deriving DecidableEq, Repr

/-- Base intent-suitability scores (tool_planner.py, INTENT_TOOL_SCORES). -/
def INTENT_TOOL_SCORES (intent tool : String) : Option ℚ :=
  if intent = "specific_fact_lookup" then
    if tool = "query_knowledge_graph" then some (9/10)
    else if tool = "retrieve_clinical_data" then some (7/10)
    else if tool = "retrieve_general_text" then some (6/10)
    else if tool = "retrieve_summary_data" then some (4/10)
    else none
  else if intent = "simple_summary" then
    if tool = "retrieve_summary_data" then some (9/10)
    else if tool = "retrieve_general_text" then some (8/10)
    else if tool = "retrieve_clinical_data" then some (5/10)
    else if tool = "query_knowledge_graph" then some (4/10)
    else none
  else if intent = "comparative_analysis" then
    if tool = "retrieve_clinical_data" then some (8/10)
    else if tool = "retrieve_summary_data" then some (8/10)
    else if tool = "retrieve_general_text" then some (7/10)
    else if tool = "query_knowledge_graph" then some (5/10)
    else none
  else if intent = "general_qa" then
    if tool = "retrieve_general_text" then some (9/10)
    else if tool = "retrieve_summary_data" then some (7/10)
    else if tool = "query_knowledge_graph" then some (6/10)
    else if tool = "retrieve_clinical_data" then some (5/10)
    else none
  else none

def DEFAULT_INTENT_SCORE : ℚ := 1/2

/-- Insertion step of the dict comprehension building persona_tool_weights:
a repeated key keeps its first position but takes the last value. -/
def dictInsert (acc : List (String × ℚ)) (kv : String × ℚ) : List (String × ℚ) :=
  if acc.any (fun q => q.1 == kv.1) then
    acc.map (fun q => if q.1 == kv.1 then (q.1, kv.2) else q)
  else acc ++ [kv]

/-- Python dict built from a key/value sequence, as an ordered association list. -/
def dictOfPairs (l : List (String × ℚ)) : List (String × ℚ) := l.foldl dictInsert []

/-- A tool together with its combined persona-weight-times-intent score. -/
structure ScoredTool where
  name : String
  score : ℚ
deriving DecidableEq, Repr

/-- Insertion step of a stable descending sort by score: an element moves past
exactly the strictly larger scores, so equal scores keep their original order,
matching Python list.sort(key=..., reverse=True). -/
def insertByScoreDesc (x : ScoredTool) : List ScoredTool → List ScoredTool
  | [] => [x]
  | y :: ys => if y.score ≤ x.score then x :: y :: ys else y :: insertByScoreDesc x ys

/-- Stable sort of the scored tools, descending by score. -/
def sortByScoreDesc (l : List ScoredTool) : List ScoredTool := l.foldr insertByScoreDesc []

/-- Round-half-to-even to an integer, the tie-breaking rule of CPython round(). -/
def pyRoundHalfEven (q : ℚ) : ℤ :=
  if q - (⌊q⌋ : ℚ) < 1/2 then ⌊q⌋
  else if 1/2 < q - (⌊q⌋ : ℚ) then ⌊q⌋ + 1
  else if ⌊q⌋ % 2 = 0 then ⌊q⌋ else ⌊q⌋ + 1

/-- Python round(x, 2). -/
def pyRound2 (q : ℚ) : ℚ := (pyRoundHalfEven (q * 100) : ℚ) / 100

/-- The accumulation loop of ToolPlanner.plan (step 5): skip scores at or below
the 0.1 floor, stop as soon as the running total reaches the threshold. -/
def planLoop (threshold : ℚ) : List ScoredTool → ℚ → List ToolPlanItem
  | [], _ => []
  | t :: rest, total =>
    if pyRound2 t.score ≤ 1/10 then planLoop threshold rest total
    else
      if threshold ≤ total + pyRound2 t.score then [⟨t.name, pyRound2 t.score⟩]
      else ⟨t.name, pyRound2 t.score⟩ :: planLoop threshold rest (total + pyRound2 t.score)

/-- The planner: coverage threshold from the Agent constructor, persona map
loaded from config/persona_tool_map.yml. -/
structure ToolPlanner where
  coverage_threshold : ℚ
  persona_map : String → Option (List PersonaPref)

/-- Python persona.lower().replace(" ", "_"). -/
def personaKeyOf (persona : String) : String :=
  joinWith "_" (pySplitOn (pyLower persona) " ")

/-- The persona preference list: the persona's own entry, else "default", else empty
(tool_planner.py line 71). -/
def personaPrefsOf (pm : String → Option (List PersonaPref)) (persona : String) :
    List PersonaPref :=
  (pm (personaKeyOf persona)).getD ((pm "default").getD [])

/-- The scored tool list of ToolPlanner.plan steps 2-3. -/
def scoredToolsOf (prefs : List PersonaPref) (intent : String) : List ScoredTool :=
  (dictOfPairs (prefs.map fun pp => (pp.tool_name, pp.weight))).map fun kv =>
    ScoredTool.mk kv.1 (kv.2 * ((INTENT_TOOL_SCORES intent kv.1).getD DEFAULT_INTENT_SCORE))

/-- ToolPlanner.plan (tool_planner.py lines 63-114). -/
def ToolPlanner.plan (p : ToolPlanner) (query_meta : QueryMetadata) (persona : String) :
    List ToolPlanItem :=
  let persona_prefs := personaPrefsOf p.persona_map persona
  if persona_prefs.isEmpty then []
  else
    planLoop p.coverage_threshold
      (sortByScoreDesc (scoredToolsOf persona_prefs query_meta.intent)) 0

/-! ## External collaborators as oracles -/

/-- A generative model handle: generate_content(prompt).text, or an exception. -/
def LLMModel : Type := String → Except PyExn String

/-- A registered tool callable: ToolResult, or the str() of a raised exception. -/
def ToolFn : Type := String → QueryMetadata → Except String ToolResult

/-- Parse result of extract_json_from_response on the decomposition response, as
consumed by Agent.run lines 212-219: a JSON object with the two optional keys,
or a non-dict value (a JSON array), on which .get raises AttributeError. -/
inductive PlanValue where
  | strList (qs : List String)
  | nonList
deriving DecidableEq, Repr

inductive PlanData where
  | dict (requires_decomposition : Option Bool) (plan : Option PlanValue)
  | nonDict
deriving DecidableEq, Repr

/-- Parse result of extract_json_from_response on the reranking response: a JSON
array of integers, or anything that is not a list (the parse-failure value is
the empty dict, which is not a list). -/
inductive RerankParsed where
  | intList (l : List Int)
  | notList
deriving DecidableEq, Repr

/-- Every external behaviour the pipeline consumes. The model handles mirror the
Agent constructor (llm, synthesis_llm, reranker_llm) plus the flash handles the
rewriter, the persona classifier and the query classifier construct for
themselves; a None handle models get_flash_model returning None. The parse
fields compose the stdlib JSON decoding of free-form model text; the tool
fields are the four Pinecone/Neo4j backed callables named in the router
registry. personaMap and coverageThreshold are the ToolPlanner construction
data (config/persona_tool_map.yml and the confidence_threshold argument). -/
structure Oracles where
  rewriterLLM : Option LLMModel
  personaLLM : Option LLMModel
  classifierLLM : Option LLMModel
  synthesisLLM : Option LLMModel
  rerankerLLM : Option LLMModel
  proLLM : Option LLMModel
  classifierParse : String → Option QueryMetadata
  decompParse : String → PlanData
  rerankParse : String → RerankParsed
  retrieve_clinical_data : ToolFn
  retrieve_summary_data : ToolFn
  retrieve_general_text : ToolFn
  query_knowledge_graph : ToolFn
  personaMap : String → Option (List PersonaPref)
  coverageThreshold : ℚ

/-! ## Prompt templates (src/prompts.py)

The literal rubric text of the templates plays no role in control flow: every
model is an oracle over the full prompt string, so the templates are kept as
abbreviated but injectively tagged interpolations. -/

def REWRITE_PROMPT_fmt (chat_history question : String) : String :=
  "REWRITE_PROMPT\nChat History:\n" ++ chat_history ++ "\nLatest User Question: " ++ question

def PERSONA_CLASSIFICATION_PROMPT_fmt (question : String) : String :=
  "PERSONA_CLASSIFICATION_PROMPT\nUser Question: " ++ question

def QUERY_CLASSIFICATION_PROMPT : String := "QUERY_CLASSIFICATION_PROMPT_V2"

def RERANKING_PROMPT_fmt (question documents : String) : String :=
  "RERANKING_PROMPT\nquestion: " ++ question ++ "\ndocuments: " ++ documents

def DECOMPOSITION_PROMPT_fmt (chat_history question : String) : String :=
  "DECOMPOSITION_PROMPT\nchat_history: " ++ chat_history ++ "\nquestion: " ++ question

def REASONING_SYNTHESIS_PROMPT_fmt (question scratchpad : String) : String :=
  "REASONING_SYNTHESIS_PROMPT\nquestion: " ++ question ++ "\nscratchpad: " ++ scratchpad

def DIRECT_SYNTHESIS_PROMPT_fmt (question context_str : String) : String :=
  "DIRECT_SYNTHESIS_PROMPT\nquestion: " ++ question ++ "\ncontext_str: " ++ context_str

def SUMMARIZATION_PROMPT_fmt (context_str : String) : String :=
  "SUMMARIZATION_PROMPT\ncontext_str: " ++ context_str

/-! ## ToolRouter (src/router/tool_router.py) -/

structure ToolRouter where
  registry : String → Option ToolFn

/-- The registry built in ToolRouter.__init__, keyed by the four names it
declares.  (The three retrieve_* attributes are referenced but not defined in
src/tools/retrievers.py; their behaviours are oracle fields regardless, since
all tools are external-backed.) -/
def standardRegistry (o : Oracles) : String → Option ToolFn := fun nm =>
  if nm = "retrieve_clinical_data" then some o.retrieve_clinical_data
  else if nm = "retrieve_summary_data" then some o.retrieve_summary_data
  else if nm = "retrieve_general_text" then some o.retrieve_general_text
  else if nm = "query_knowledge_graph" then some o.query_knowledge_graph
  else none

/-- ToolRouter.execute_tool (tool_router.py lines 38-73): unknown name yields a
failure result without invoking anything; a raising tool is absorbed into a
failure result carrying the error description. -/
def ToolRouter.execute_tool (r : ToolRouter) (tool_name query : String)
    (query_meta : QueryMetadata) : M ToolResult :=
  M.bind (M.emit (Event.routerCall tool_name)) fun _ =>
  match r.registry tool_name with
  | none =>
      M.pure ⟨tool_name, false, "[Error: Tool not implemented or misconfigured]", 0⟩
  | some f =>
      M.bind (M.emit (Event.toolRun tool_name)) fun _ =>
      match f query query_meta with
      | Except.ok res => M.pure res
      | Except.error e =>
          M.pure ⟨tool_name, false, "An unexpected error occurred in the tool: " ++ e, 0⟩

/-! ## Resilient model-call wrappers -/

/-- Agent._call_llm_with_retry (agent.py lines 71-84): both the RetryError
branch and the blanket Exception branch return None, so any raise from the
model handle collapses to None. Also used for QueryClassifier's equivalent
wrapper. The tag names which handle was called in the event trace. -/
def call_llm_with_retry (tag : String) (model : Option LLMModel) (prompt : String) :
    M (Option String) :=
  match model with
  | none => M.pure none
  | some f =>
      M.bind (M.emit (Event.llmCall tag prompt)) fun _ =>
      match f prompt with
      | Except.ok t => M.pure (some t)
      | Except.error _ => M.pure none

/-- QueryRewriter._call_llm_with_retry (query_rewriter.py lines 53-66): the
module never imports google_exceptions, so when the model call raises, the
evaluation of the first except clause itself raises NameError, which escapes
(the second except clause is never considered). -/
def QueryRewriter.call_llm_with_retry (o : Oracles) (prompt : String) : M (Option String) :=
  match o.rewriterLLM with
  | none => M.pure none
  | some f =>
      M.bind (M.emit (Event.llmCall "rewriter" prompt)) fun _ =>
      match f prompt with
      | Except.ok t => M.pure (some t)
      | Except.error _ =>
          M.throw (PyExn.other "NameError: name google_exceptions is not defined")

/-! ## QueryRewriter (src/planner/query_rewriter.py) -/

def CONVERSATIONAL_TRIGGERS : List String :=
  ["it", "its", "they", "them", "that", "those", "this", "these"]

/-- Python query.lower().split(): whitespace-delimited lowercased words. -/
def queryWords (q : String) : List String := pySplitWs (pyLower q).data

/-- Nonemptiness of CONVERSATIONAL_TRIGGERS.intersection(query_words). -/
def hasTrigger (q : String) : Bool :=
  CONVERSATIONAL_TRIGGERS.any fun w => (queryWords q).contains w

/-- QueryRewriter.rewrite (query_rewriter.py lines 69-97). -/
def QueryRewriter.rewrite (o : Oracles) (query : String) (chat_history : List String) :
    M String :=
  if o.rewriterLLM.isNone || chat_history.isEmpty then M.pure query
  else if !(hasTrigger query) then M.pure query
  else
    let prompt := REWRITE_PROMPT_fmt (joinWith "\n  - " chat_history) query
    M.bind (QueryRewriter.call_llm_with_retry o prompt) fun r =>
    match r with
    | none => M.pure query
    | some t => if pyStrip t = "" then M.pure query else M.pure (pyStrip t)

/-! ## PersonaClassifier (src/planner/persona_classifier.py) -/

def PERSONA_KEYS : List String :=
  ["clinical_analyst", "health_economist", "regulatory_specialist"]

/-- PersonaClassifier.classify (persona_classifier.py lines 49-68): a missing
model handle, a raising model call, and an invalid returned token all fall back
to the default persona; classify never returns None. -/
def PersonaClassifier.classify (o : Oracles) (query : String) : M String :=
  match o.personaLLM with
  | none => M.pure "regulatory_specialist"
  | some f =>
      let prompt := PERSONA_CLASSIFICATION_PROMPT_fmt query
      M.bind (M.emit (Event.llmCall "persona" prompt)) fun _ =>
      match f prompt with
      | Except.ok t =>
          if PERSONA_KEYS.contains (pyStrip t) then M.pure (pyStrip t)
          else M.pure "regulatory_specialist"
      | Except.error _ => M.pure "regulatory_specialist"

/-! ## QueryClassifier (src/planner/query_classifier.py) -/

def classifierPrompt (query : String) : String :=
  QUERY_CLASSIFICATION_PROMPT ++ "\n\nUser Query: " ++ query

/-- QueryClassifier.classify (query_classifier.py lines 54-81): None without a
model handle or on a raising call; otherwise the JSON-extract-normalise-validate
pipeline (which catches all of its own exceptions) is the classifierParse
oracle, returning the validated metadata or None. -/
def QueryClassifier.classify (o : Oracles) (query : String) : M (Option QueryMetadata) :=
  match o.classifierLLM with
  | none => M.pure none
  | some f =>
      M.bind (M.emit (Event.llmCall "classifier" (classifierPrompt query))) fun _ =>
      match f (classifierPrompt query) with
      | Except.ok t => M.pure (o.classifierParse t)
      | Except.error _ => M.pure none

/-! ## Evidence reranker (src/agent.py, Agent._rerank_with_gemini) -/

/-- Python subscript semantics on a string list: a nonnegative index in range
reads directly, a negative index at least -len reads from the end, anything
else raises IndexError. -/
def pyIndex (l : List String) (i : Int) : Except String String :=
  if 0 ≤ i ∧ i < (l.length : Int) then Except.ok (l.getD i.toNat "")
  else if -(l.length : Int) ≤ i ∧ i < 0 then Except.ok (l.getD ((l.length : Int) + i).toNat "")
  else Except.error "IndexError: list index out of range"

/-- Total companion of pyIndex for indices in [-len, len). -/
def pyElem (l : List String) (i : Int) : String :=
  if 0 ≤ i then l.getD i.toNat "" else l.getD ((l.length : Int) + i).toNat ""

/-- The list comprehension of agent.py line 102:
documents[i] for i in best_indices if i < len(documents). Only the upper bound
is filtered, so a negative index reaches the subscript, where an index below
-len raises. -/
def rerankSelect (documents : List String) : List Int → M (List String)
  | [] => M.pure []
  | i :: rest =>
    if i < (documents.length : Int) then
      match pyIndex documents i with
      | Except.ok d => M.bind (rerankSelect documents rest) fun ds => M.pure (d :: ds)
      | Except.error msg => M.throw (PyExn.other msg)
    else rerankSelect documents rest

/-- The positional document block of agent.py line 88. -/
def formattedDocuments (documents : List String) : String :=
  joinWith "\n\n"
    (documents.enum.map fun p => "DOCUMENT[" ++ toString p.1 ++ "]:\n" ++ p.2)

/-- Agent._rerank_with_gemini (agent.py lines 86-104). The entry event records
that the method was invoked at all. -/
def Agent.rerank_with_gemini (o : Oracles) (query : String) (documents : List String) :
    M (List String) :=
  M.bind (M.emit Event.rerankCall) fun _ =>
  if o.rerankerLLM.isNone || documents.isEmpty then M.pure documents
  else
    let prompt := RERANKING_PROMPT_fmt query (formattedDocuments documents)
    M.bind (call_llm_with_retry "reranker" o.rerankerLLM prompt) fun r =>
    match r with
    | none => M.pure (documents.take 5)
    | some t =>
      match o.rerankParse t with
      | RerankParsed.notList => M.pure (documents.take 5)
      | RerankParsed.intList l => rerankSelect documents l

/-! ## Citation scanning and the references section (agent.py lines 171-185) -/

/-- Numeric value of a digit run. -/
def natOfDigits (ds : List Char) : Nat :=
  ds.foldl (fun n c => 10 * n + (c.toNat - Char.toNat (Char.ofNat 48))) 0

/-- Left-to-right non-overlapping scan for bracketed digit runs, the matches of
re.findall applied to the citation pattern (an opening bracket, one or more
digits, a closing bracket), as a character automaton: the state holds the
digits read since the most recent opening bracket, when one is pending. -/
def scanCitationsAux : List Char → Option (List Char) → List Nat
  | [], _ => []
  | c :: rest, none =>
    if c = Char.ofNat 91 then scanCitationsAux rest (some [])
    else scanCitationsAux rest none
  | c :: rest, some ds =>
    if c = Char.ofNat 91 then scanCitationsAux rest (some [])
    else if c.isDigit then scanCitationsAux rest (some (ds ++ [c]))
    else if c = Char.ofNat 93 && !ds.isEmpty then
      natOfDigits ds :: scanCitationsAux rest none
    else scanCitationsAux rest none

def scanCitations (l : List Char) : List Nat := scanCitationsAux l none

/-- Ascending insertion skipping duplicates. -/
def insertAsc (x : Int) : List Int → List Int
  | [] => [x]
  | y :: ys => if x < y then x :: y :: ys else if x = y then y :: ys else y :: insertAsc x ys

/-- Python sorted(list(set(l))): the distinct values in ascending order. -/
def sortedDedup (l : List Int) : List Int := l.foldr insertAsc []

/-- The value sorted(list(used_indices)) of agent.py line 178, where
used_indices is the set of cited bracket numbers each less one. -/
def usedIndicesSorted (text : String) : List Int :=
  sortedDedup (List.map (fun n : Nat => (n : Int) - 1) (scanCitations text.data))

/-- The dedup-preserving accumulation of used_links_ordered (lines 176-183):
a link is appended only when not seen before. -/
def collectLinks (links : List String) : List Int → List String → Except String (List String)
  | [], acc => Except.ok acc
  | idx :: rest, acc =>
    if idx < (links.length : Int) then
      match pyIndex links idx with
      | Except.error m => Except.error m
      | Except.ok link =>
        if link ∈ acc then collectLinks links rest acc
        else collectLinks links rest (acc ++ [link])
    else collectLinks links rest acc

/-- Rendering of the references section appended to the stripped answer. -/
def renderRefs (base : String) (links : List String) : String :=
  base ++ "\n\n**References**\n" ++
    joinWith "\n" (links.enum.map fun p => toString (p.1 + 1) ++ ". " ++ p.2)

/-- The citation post-processing of _run_single_rag_step (agent.py lines
171-185) as a function of the raw answer text and the citation link pool:
strip the answer, and if any bracket citations were used, append the
references section built from them. -/
def appendReferences (answer_text : String) (citation_links : List String) :
    Except String String :=
  let used := usedIndicesSorted answer_text
  if used.isEmpty then Except.ok (pyStrip answer_text)
  else
    match collectLinks citation_links used [] with
    | Except.error m => Except.error m
    | Except.ok used_links_ordered =>
        Except.ok (renderRefs (pyStrip answer_text) used_links_ordered)

/-! ## Agent._run_single_rag_step (agent.py lines 106-187) -/

/-- Fixed degradation messages of the step and the outer run. -/
def noStrategyMsg : String := "I don" ++ apos ++ "t have a strategy for this query."

def highTrafficMsg : String :=
  "I" ++ apos ++
  "m sorry, the AI models I rely on are currently experiencing high traffic. Please try your question again in a few moments."

def criticalErrorMsg : String :=
  "I encountered a critical error processing your request. Please check the system logs for more details."

/-- Per-result snippet separator (agent.py line 135). -/
def splitterFor (res : ToolResult) : String :=
  if res.tool_name = "vector_search" then "\n---\n" else "\n"

/-- Evidence aggregation of agent.py lines 132-138: successful, non-blank tool
outputs are split into snippets and blank snippets are dropped. -/
def collectDocs (results : List ToolResult) : List String :=
  ((results.map fun res =>
      if res.success && res.content != "" && pyStrip res.content != "" then
        pySplitOn res.content (splitterFor res)
      else []).join).filter fun doc => doc != "" && pyStrip doc != ""

/-- Body text of a snippet: the part before the citation delimiter (line 153). -/
def evidencePart (doc : String) : String := (pySplitOn doc "\nCitation: ").headD ""

/-- Citation link of a snippet, when the delimiter is present (lines 155-156):
parts[1], the chunk right after the first delimiter. -/
def citationPart (doc : String) : Option String :=
  match pySplitOn doc "\nCitation: " with
  | _ :: c :: _ => some c
  | _ => none

/-- The numbered evidence block of line 158. -/
def formatContext (evidence_texts : List String) : String :=
  joinWith "\n\n"
    (evidence_texts.enum.map fun p => "EVIDENCE [" ++ toString (p.1 + 1) ++ "]:\n" ++ p.2)

/-- Return tuple of the step: answer, metadata, plan, tool results. -/
def StepOut : Type := String × Option QueryMetadata × List ToolPlanItem × List ToolResult

/-- The ToolPlanner the Agent constructs. -/
def agentPlanner (o : Oracles) : ToolPlanner := ⟨o.coverageThreshold, o.personaMap⟩

/-- Steps 1-2 of the conditional tool flow (agent.py lines 115-124): execute the
knowledge-graph tool when suitable and planned, and judge whether its result is
a definitive ("golden") answer. -/
def kgPhase (o : Oracles) (query : String) (query_meta : QueryMetadata)
    (tool_plan : List ToolPlanItem) : M (List ToolResult × Bool) :=
  if query_meta.question_is_graph_suitable
      && tool_plan.any (fun t => t.tool_name == "query_knowledge_graph") then
    M.bind (ToolRouter.execute_tool ⟨standardRegistry o⟩ "query_knowledge_graph"
        query query_meta) fun kg_result =>
    M.pure ([kg_result],
      kg_result.success && kg_result.content != ""
        && decide (10 < (pyStrip kg_result.content).length))
  else M.pure ([], false)

/-- The tail of _run_single_rag_step after the tool flow (agent.py lines
132-187): aggregate evidence, rerank unless the graph short-circuit fired,
synthesize, and post-process citations. -/
def stepRest (o : Oracles) (query : String) (query_meta : QueryMetadata)
    (tool_plan : List ToolPlanItem) (final_results : List ToolResult)
    (kg_success : Bool) : M StepOut :=
  if (collectDocs final_results).isEmpty then
    M.pure ("I searched but could not find any relevant details.",
      some query_meta, tool_plan, final_results)
  else
    M.bind (if !kg_success then Agent.rerank_with_gemini o query (collectDocs final_results)
            else M.pure (collectDocs final_results)) fun ranked_docs =>
    if ranked_docs.isEmpty then
      M.pure ("I found some information, but it did not seem relevant.",
        some query_meta, tool_plan, final_results)
    else
      M.bind (call_llm_with_retry "synthesis" o.synthesisLLM
        (if query_meta.intent = "simple_summary" then
          SUMMARIZATION_PROMPT_fmt (formatContext (ranked_docs.map evidencePart))
         else DIRECT_SYNTHESIS_PROMPT_fmt query
          (formatContext (ranked_docs.map evidencePart)))) fun answer? =>
      match answer? with
      | none => M.throw (PyExn.retryError "Synthesis LLM failed due to API overload.")
      | some answer_text =>
        if query_meta.intent ≠ "simple_summary" then
          match appendReferences answer_text (ranked_docs.filterMap citationPart) with
          | Except.error m => M.throw (PyExn.other m)
          | Except.ok final_response =>
              M.pure (final_response, some query_meta, tool_plan, final_results)
        else M.pure (pyStrip answer_text, some query_meta, tool_plan, final_results)

/-- Agent._run_single_rag_step: classify, plan, run the conditional tool flow
(graph first with short-circuit, vector search only as fallback), then the
aggregation/synthesis tail. -/
def Agent.run_single_rag_step (o : Oracles) (query persona : String) : M StepOut :=
  M.bind (QueryClassifier.classify o query) fun qm? =>
  match qm? with
  | none => M.pure ("I had trouble understanding the query.", none, [], [])
  | some query_meta =>
    if ((agentPlanner o).plan query_meta persona).isEmpty then
      M.pure (noStrategyMsg, some query_meta, [], [])
    else
      M.bind (kgPhase o query query_meta ((agentPlanner o).plan query_meta persona)) fun kg =>
      M.bind
        (if !kg.2 && ((agentPlanner o).plan query_meta persona).any
            (fun t => t.tool_name == "vector_search") then
          M.bind (ToolRouter.execute_tool ⟨standardRegistry o⟩ "vector_search"
              query query_meta) fun vector_result =>
          M.pure (kg.1 ++ [vector_result])
        else M.pure kg.1) fun final_results =>
      stepRest o query query_meta ((agentPlanner o).plan query_meta persona)
        final_results kg.2

/-! ## Agent.run (agent.py lines 189-269) -/

def LOGIC_KEYWORDS : List String :=
  ["identify", "compare", "contrast", "common", "difference", "both"]

/-- Python substring membership for a nonempty needle. -/
def pyContains (hay needle : String) : Bool := (pySplitOn hay needle).length != 1

/-- Classification of a sub-question as a logic/combining instruction. -/
def isLogicStep (q : String) : Bool := LOGIC_KEYWORDS.any fun kw => pyContains (pyLower q) kw

/-- The display name of agent.py line 202. -/
def personaDisplayName (p : String) : String :=
  joinWith " " ((pySplitOn p "_").map pyCapitalize)

/-- Final-answer presentation (line 259): the acting-as banner is prefixed only
when the caller asked for automatic persona selection. -/
def finishAnswer (persona display synthesis_result : String) : String :=
  if persona = "automatic" then
    "Acting as a **" ++ display ++ "**, here is what I found:\n\n" ++ synthesis_result
  else synthesis_result

/-- The single-step branch (lines 217-219): plan[0] is subscripted, so an empty
plan list raises IndexError and a non-list plan value raises TypeError; both
escape to the outer boundary. -/
def singleStepPath (o : Oracles) (persona chosen_persona display : String) :
    PlanValue → M String
  | PlanValue.nonList => M.throw (PyExn.other "TypeError: plan value is not subscriptable")
  | PlanValue.strList [] => M.throw (PyExn.other "IndexError: list index out of range")
  | PlanValue.strList (q :: _) =>
    M.bind (Agent.run_single_rag_step o q chosen_persona) fun r =>
    M.pure (finishAnswer persona display r.1)

/-- Sequential model of the ThreadPoolExecutor fan-out over sub-questions
(lines 237-239): results are gathered in submission order. An exception raised
inside an earlier sub-step surfaces first, matching the in-order future.result
calls; events of concurrently running later sub-steps are not modelled. -/
def runSubSteps (o : Oracles) (persona : String) : List String → M (List StepOut)
  | [] => M.pure []
  | q :: qs =>
    M.bind (Agent.run_single_rag_step o q persona) fun r =>
    M.bind (runSubSteps o persona qs) fun rs =>
    M.pure (r :: rs)

/-- The multi-step branch (lines 220-257). -/
def multiStepPath (o : Oracles) (persona chosen_persona display rewritten_query : String)
    (qs : List String) : M String :=
  let logic_instruction := ((qs.filter isLogicStep).getLast?).getD ""
  let retrieval_steps0 := qs.filter fun q => !(isLogicStep q)
  let retrieval_steps :=
    if retrieval_steps0.isEmpty && logic_instruction != "" then qs else retrieval_steps0
  M.bind (runSubSteps o chosen_persona retrieval_steps) fun sub_results =>
  let scratchpad := (retrieval_steps.zip sub_results).map fun p =>
    "Observation for the question " ++ apos ++ p.1 ++ apos ++ ":\n" ++ p.2.1
  let scratchpad2 :=
    if logic_instruction != "" && !(retrieval_steps.contains logic_instruction) then
      scratchpad ++ ["Final Instruction: " ++ logic_instruction]
    else scratchpad
  let synthesis_prompt :=
    REASONING_SYNTHESIS_PROMPT_fmt rewritten_query (joinWith "\n\n---\n\n" scratchpad2)
  M.bind (call_llm_with_retry "pro" o.proLLM synthesis_prompt) fun sr? =>
  match sr? with
  | none => M.throw (PyExn.retryError "Final synthesis LLM failed due to API overload.")
  | some sr => M.pure (finishAnswer persona display sr)

/-- The body of Agent.run after query rewriting and persona classification
(lines 200-260): decompose, choose the single- or multi-step path and present
the final answer. -/
def Agent.runBodyRest (o : Oracles) (persona : String) (chat_history : List String)
    (rewritten_query chosen_persona_key : String) : M String :=
  let chosen_persona := if persona = "automatic" then chosen_persona_key else persona
  let persona_display_name := personaDisplayName chosen_persona
  let decomp_prompt :=
    DECOMPOSITION_PROMPT_fmt (joinWith "\n- " chat_history) rewritten_query
  M.bind (call_llm_with_retry "synthesis" o.synthesisLLM decomp_prompt) fun decomp? =>
  let plan_data :=
    match decomp? with
    | none => PlanData.dict (some false) (some (PlanValue.strList [rewritten_query]))
    | some t => o.decompParse t
  match plan_data with
  | PlanData.nonDict =>
      M.throw (PyExn.other "AttributeError: list object has no attribute get")
  | PlanData.dict rd pf =>
    let requires_decomposition := rd.getD false
    let planv := pf.getD (PlanValue.strList [rewritten_query])
    if requires_decomposition = false then
      singleStepPath o persona chosen_persona persona_display_name planv
    else
      match planv with
      | PlanValue.nonList => M.throw (PyExn.other "TypeError: plan value has no len")
      | PlanValue.strList qs =>
        if qs.length ≤ 1 then
          singleStepPath o persona chosen_persona persona_display_name (PlanValue.strList qs)
        else
          multiStepPath o persona chosen_persona persona_display_name rewritten_query qs

/-- The whole try-block body of Agent.run (lines 192-260).  The source checks
classify's result against None at lines 197-199, but PersonaClassifier.classify
is total and never returns None, so that branch is dead and does not appear. -/
def Agent.runBody (o : Oracles) (query persona : String) (chat_history : List String) :
    M String :=
  M.bind (QueryRewriter.rewrite o query chat_history) fun rewritten_query =>
  M.bind (PersonaClassifier.classify o rewritten_query) fun chosen_persona_key =>
  Agent.runBodyRest o persona chat_history rewritten_query chosen_persona_key

/-- The two except clauses of Agent.run (lines 261-266). -/
def outerBoundary (m : M String) : String :=
  match m with
  | (MRes.ok s, _) => s
  | (MRes.exn (PyExn.retryError _), _) => highTrafficMsg
  | (MRes.exn (PyExn.other _), _) => criticalErrorMsg

/-- Agent.run: the body guarded by the outer fault boundary. -/
def Agent.run (o : Oracles) (query persona : String) (chat_history : List String) : String :=
  outerBoundary (Agent.runBody o query persona chat_history)

/-! ## Characterization lemmas -/

/-- Closed form of ToolRouter.execute_tool by cases on the registry lookup and
the tool outcome. -/
theorem execute_tool_eq (reg : String → Option ToolFn) (nm q : String) (qm : QueryMetadata) :
    ToolRouter.execute_tool ⟨reg⟩ nm q qm =
      match reg nm with
      | none =>
          (MRes.ok ⟨nm, false, "[Error: Tool not implemented or misconfigured]", 0⟩,
           [Event.routerCall nm])
      | some f =>
          match f q qm with
          | Except.ok res => (MRes.ok res, [Event.routerCall nm, Event.toolRun nm])
          | Except.error e =>
              (MRes.ok ⟨nm, false, "An unexpected error occurred in the tool: " ++ e, 0⟩,
               [Event.routerCall nm, Event.toolRun nm]) := by
  unfold ToolRouter.execute_tool
  cases hr : reg nm with
  | none =>
    simp only [show ({ registry := reg } : ToolRouter).registry = reg from rfl, hr]
    rfl
  | some f =>
    simp only [show ({ registry := reg } : ToolRouter).registry = reg from rfl, hr]
    cases hf : f q qm with
    | ok res => simp only [hf]; rfl
    | error e => simp only [hf]; rfl

/-- Closed form of PersonaClassifier.classify. -/
theorem persona_classify_eq (o : Oracles) (q : String) :
    PersonaClassifier.classify o q =
      match o.personaLLM with
      | none => (MRes.ok "regulatory_specialist", [])
      | some f =>
          match f (PERSONA_CLASSIFICATION_PROMPT_fmt q) with
          | Except.ok t =>
              (MRes.ok (if PERSONA_KEYS.contains (pyStrip t) then (pyStrip t)
                        else "regulatory_specialist"),
               [Event.llmCall "persona" (PERSONA_CLASSIFICATION_PROMPT_fmt q)])
          | Except.error _ =>
              (MRes.ok "regulatory_specialist",
               [Event.llmCall "persona" (PERSONA_CLASSIFICATION_PROMPT_fmt q)]) := by
  unfold PersonaClassifier.classify
  cases ho : o.personaLLM with
  | none => rfl
  | some f =>
    simp only [ho]
    cases hf : f (PERSONA_CLASSIFICATION_PROMPT_fmt q) with
    | error e => simp only [hf]; rfl
    | ok t =>
      simp only [hf]
      cases hc : PERSONA_KEYS.contains (pyStrip t) <;> rfl

/-- Closed form of QueryClassifier.classify. -/
theorem query_classify_eq (o : Oracles) (q : String) :
    QueryClassifier.classify o q =
      match o.classifierLLM with
      | none => (MRes.ok none, [])
      | some f =>
          match f (classifierPrompt q) with
          | Except.ok t =>
              (MRes.ok (o.classifierParse t), [Event.llmCall "classifier" (classifierPrompt q)])
          | Except.error _ =>
              (MRes.ok none, [Event.llmCall "classifier" (classifierPrompt q)]) := by
  unfold QueryClassifier.classify
  cases ho : o.classifierLLM with
  | none => rfl
  | some f =>
    simp only [ho]
    cases hf : f (classifierPrompt q) with
    | ok t => simp only [hf]; rfl
    | error e => simp only [hf]; rfl

/-! ## Shared concrete oracles for witnesses and counterexamples -/

/-- A tool oracle standing for a backend that is down and raises. -/
def downTool : ToolFn := fun _ _ => Except.error "ConnectionError: backend unavailable"

/-- A tool oracle that raises; used to exercise the router fault boundary. -/
def boomTool : ToolFn := fun _ _ => Except.error "boom"

/-- Baseline oracle assignment for concrete scenarios; individual scenarios
override the fields they need. -/
def baseOracles : Oracles where
  rewriterLLM := none
  personaLLM := none
  classifierLLM := none
  synthesisLLM := none
  rerankerLLM := none
  proLLM := none
  classifierParse := fun _ => none
  decompParse := fun _ => PlanData.dict none none
  rerankParse := fun _ => RerankParsed.notList
  retrieve_clinical_data := downTool
  retrieve_summary_data := downTool
  retrieve_general_text := downTool
  query_knowledge_graph := downTool
  personaMap := fun _ => none
  coverageThreshold := 85/100

/-! ## C1 -/

/-- C1: ToolRouter.execute_tool always returns a ToolResult and never lets an
exception escape: an unregistered name yields a failed result with the
not-implemented message without invoking any tool, and a registered tool that
raises yields a failed result whose content carries the error description. -/
theorem execute_tool_fault_boundary (reg : String → Option ToolFn)
    (tool_name query : String) (query_meta : QueryMetadata) :
    (∃ r evs, ToolRouter.execute_tool ⟨reg⟩ tool_name query query_meta = (MRes.ok r, evs)) ∧
    (reg tool_name = none →
      ToolRouter.execute_tool ⟨reg⟩ tool_name query query_meta =
        (MRes.ok ⟨tool_name, false, "[Error: Tool not implemented or misconfigured]", 0⟩,
         [Event.routerCall tool_name])) ∧
    (∀ f e, reg tool_name = some f → f query query_meta = Except.error e →
      ToolRouter.execute_tool ⟨reg⟩ tool_name query query_meta =
        (MRes.ok ⟨tool_name, false, "An unexpected error occurred in the tool: " ++ e, 0⟩,
         [Event.routerCall tool_name, Event.toolRun tool_name])) := by
  refine ⟨?_, ?_, ?_⟩
  · rw [execute_tool_eq]
    cases hr : reg tool_name with
    | none =>
      exact ⟨⟨tool_name, false, "[Error: Tool not implemented or misconfigured]", 0⟩,
             [Event.routerCall tool_name], rfl⟩
    | some f =>
      cases hf : f query query_meta with
      | ok res =>
        exact ⟨res, [Event.routerCall tool_name, Event.toolRun tool_name],
          by dsimp only; rw [hf]⟩
      | error e =>
        exact ⟨⟨tool_name, false, "An unexpected error occurred in the tool: " ++ e, 0⟩,
               [Event.routerCall tool_name, Event.toolRun tool_name],
          by dsimp only; rw [hf]⟩
  · intro hr
    rw [execute_tool_eq, hr]
  · intro f e hr hf
    rw [execute_tool_eq, hr]
    dsimp only
    rw [hf]

/-- Witness for C1 at a concrete registry: a name outside the registry, and a
registered tool that raises. -/
theorem execute_tool_fault_boundary_witness :
    (ToolRouter.execute_tool ⟨fun nm => if nm = "boom_tool" then some boomTool else none⟩
        "missing_tool" "q" ⟨"general_qa", [], false, []⟩ =
      (MRes.ok ⟨"missing_tool", false, "[Error: Tool not implemented or misconfigured]", 0⟩,
       [Event.routerCall "missing_tool"])) ∧
    (ToolRouter.execute_tool ⟨fun nm => if nm = "boom_tool" then some boomTool else none⟩
        "boom_tool" "q" ⟨"general_qa", [], false, []⟩ =
      (MRes.ok ⟨"boom_tool", false, "An unexpected error occurred in the tool: boom", 0⟩,
       [Event.routerCall "boom_tool", Event.toolRun "boom_tool"])) :=
  ⟨(execute_tool_fault_boundary _ "missing_tool" "q" _).2.1 rfl,
   (execute_tool_fault_boundary _ "boom_tool" "q" _).2.2 boomTool "boom" rfl rfl⟩

/-! ## C7 (corrected) -/

/-- Counterexample to C7 as stated: with a persona model handle that raises
(an irrecoverable API failure), classify returns the default persona key, a
normal value — it does not return null (None is not even a possible return
value of the function, whose every branch returns a persona string). -/
theorem persona_classify_no_null_cex :
    PersonaClassifier.classify
        { baseOracles with
          personaLLM := some fun _ => Except.error (PyExn.other "ServiceUnavailable: 503") }
        "What is the listing status?" =
      (MRes.ok "regulatory_specialist",
       [Event.llmCall "persona"
          (PERSONA_CLASSIFICATION_PROMPT_fmt "What is the listing status?")]) := rfl

/-- C7 amended: classify never returns null.  On a missing handle, on a raising
model call, and on a token outside the closed persona set alike it returns the
fixed default persona key; a valid token is returned as is.  Its result is
always a member of the closed persona set. -/
theorem persona_classify_total_default (o : Oracles) (q : String) :
    (∃ k evs, PersonaClassifier.classify o q = (MRes.ok k, evs) ∧
      PERSONA_KEYS.contains k = true) ∧
    (o.personaLLM = none →
      PersonaClassifier.classify o q = (MRes.ok "regulatory_specialist", [])) ∧
    (∀ f e, o.personaLLM = some f →
      f (PERSONA_CLASSIFICATION_PROMPT_fmt q) = Except.error e →
      PersonaClassifier.classify o q =
        (MRes.ok "regulatory_specialist",
         [Event.llmCall "persona" (PERSONA_CLASSIFICATION_PROMPT_fmt q)])) ∧
    (∀ f t, o.personaLLM = some f →
      f (PERSONA_CLASSIFICATION_PROMPT_fmt q) = Except.ok t →
      PersonaClassifier.classify o q =
        (MRes.ok (if PERSONA_KEYS.contains (pyStrip t) then (pyStrip t)
                  else "regulatory_specialist"),
         [Event.llmCall "persona" (PERSONA_CLASSIFICATION_PROMPT_fmt q)])) := by
  refine ⟨?_, ?_, ?_, ?_⟩
  · rw [persona_classify_eq]
    cases ho : o.personaLLM with
    | none => exact ⟨"regulatory_specialist", [], rfl, by decide⟩
    | some f =>
      cases hf : f (PERSONA_CLASSIFICATION_PROMPT_fmt q) with
      | ok t =>
        by_cases hc : PERSONA_KEYS.contains (pyStrip t) = true
        · refine ⟨(pyStrip t), [Event.llmCall "persona" (PERSONA_CLASSIFICATION_PROMPT_fmt q)],
            ?_, hc⟩
          dsimp only
          rw [hf]
          dsimp only
          rw [if_pos hc]
        · refine ⟨"regulatory_specialist",
            [Event.llmCall "persona" (PERSONA_CLASSIFICATION_PROMPT_fmt q)], ?_, by decide⟩
          dsimp only
          rw [hf]
          dsimp only
          rw [if_neg hc]
      | error e =>
        refine ⟨"regulatory_specialist",
          [Event.llmCall "persona" (PERSONA_CLASSIFICATION_PROMPT_fmt q)], ?_, by decide⟩
        dsimp only
        rw [hf]
  · intro ho; rw [persona_classify_eq, ho]
  · intro f e ho hf
    rw [persona_classify_eq, ho]
    dsimp only
    rw [hf]
  · intro f t ho hf
    rw [persona_classify_eq, ho]
    dsimp only
    rw [hf]

/-- Witness for the amended C7 on a raising model handle. -/
theorem persona_classify_total_default_witness :
    PersonaClassifier.classify
        { baseOracles with
          personaLLM := some fun _ => Except.error (PyExn.other "RetryError: deadline") }
        "q" =
      (MRes.ok "regulatory_specialist",
       [Event.llmCall "persona" (PERSONA_CLASSIFICATION_PROMPT_fmt "q")]) :=
  (persona_classify_total_default
      { baseOracles with
        personaLLM := some fun _ => Except.error (PyExn.other "RetryError: deadline") }
      "q").2.2.1 _ (PyExn.other "RetryError: deadline") rfl rfl

/-! ## C9 -/

/-- C9: a query whose lowercase word set contains no anaphora trigger is
returned unchanged by rewrite for every history, with an empty event trace (no
model call); an empty history likewise short-circuits to the unchanged query. -/
theorem rewrite_standalone_no_model_call (o : Oracles) (q : String)
    (history : List String) (hq : hasTrigger q = false) :
    QueryRewriter.rewrite o q history = (MRes.ok q, []) ∧
    QueryRewriter.rewrite o q [] = (MRes.ok q, []) := by
  constructor
  · unfold QueryRewriter.rewrite
    by_cases h1 : o.rewriterLLM.isNone || history.isEmpty
    · simp [h1, M.pure]
    · simp [h1, hq, M.pure]
  · unfold QueryRewriter.rewrite
    simp [M.pure]

/-- Witness for C9 on a standalone query, a nonempty history and a live model
handle (which must not be called). -/
theorem rewrite_standalone_no_model_call_witness :
    hasTrigger "What is the dosage form for Fruquintinib?" = false ∧
    QueryRewriter.rewrite
        { baseOracles with rewriterLLM := some fun _ => Except.ok "REWRITTEN" }
        "What is the dosage form for Fruquintinib?"
        ["user: Who is the sponsor for Esketamine?"] =
      (MRes.ok "What is the dosage form for Fruquintinib?", []) :=
  ⟨by decide,
   (rewrite_standalone_no_model_call
      { baseOracles with rewriterLLM := some fun _ => Except.ok "REWRITTEN" }
      "What is the dosage form for Fruquintinib?"
      ["user: Who is the sponsor for Esketamine?"] (by decide)).1⟩

/-! ## C8 (corrected): reranker fallback and index semantics -/

theorem pyIndex_nonneg (l : List String) (i : Int) (h0 : 0 ≤ i)
    (h2 : i < (l.length : Int)) : pyIndex l i = Except.ok (l.getD i.toNat "") := by
  unfold pyIndex
  rw [if_pos ⟨h0, h2⟩]

theorem pyIndex_eq_elem (l : List String) (i : Int) (h1 : -(l.length : Int) ≤ i)
    (h2 : i < (l.length : Int)) : pyIndex l i = Except.ok (pyElem l i) := by
  unfold pyIndex pyElem
  by_cases h0 : 0 ≤ i
  · rw [if_pos ⟨h0, h2⟩, if_pos h0]
  · rw [if_neg (fun h => h0 h.1), if_pos ⟨h1, by omega⟩, if_neg h0]

theorem pyIndex_oob (l : List String) (i : Int) (h : i < -(l.length : Int)) :
    pyIndex l i = Except.error "IndexError: list index out of range" := by
  unfold pyIndex
  rw [if_neg (by omega), if_neg (by omega)]

theorem getD_mem_of_lt {l : List String} {i : Nat} (h : i < l.length) (d : String) :
    l.getD i d ∈ l := by
  induction l generalizing i with
  | nil => simp at h
  | cons a l ih =>
    cases i with
    | zero => simp [List.getD]
    | succ j =>
      simp only [List.getD_cons_succ]
      exact List.mem_cons_of_mem a (ih (by simpa using h))

theorem pyElem_mem (l : List String) (i : Int) (h1 : -(l.length : Int) ≤ i)
    (h2 : i < (l.length : Int)) : pyElem l i ∈ l := by
  unfold pyElem
  by_cases h0 : 0 ≤ i
  · rw [if_pos h0]
    exact getD_mem_of_lt (by omega) _
  · rw [if_neg h0]
    exact getD_mem_of_lt (by omega) _

/-- The selection a best_indices list produces when no index is below -len:
indices at or above len are dropped, the rest subscript (wrapping from the end
for negatives). -/
def rerankSelection (docs : List String) (l : List Int) : List String :=
  l.filterMap fun i =>
    if -(docs.length : Int) ≤ i ∧ i < (docs.length : Int) then some (pyElem docs i)
    else none

theorem rerankSelect_ok (docs : List String) (l : List Int)
    (h : ∀ i ∈ l, -(docs.length : Int) ≤ i) :
    rerankSelect docs l = (MRes.ok (rerankSelection docs l), []) := by
  induction l with
  | nil => rfl
  | cons i is ih =>
    have hi : -(docs.length : Int) ≤ i := h i (List.mem_cons_self i is)
    have hrest : ∀ j ∈ is, -(docs.length : Int) ≤ j :=
      fun j hj => h j (List.mem_cons_of_mem i hj)
    by_cases hlt : i < (docs.length : Int)
    · have hsel : rerankSelection docs (i :: is) =
          pyElem docs i :: rerankSelection docs is := by
        simp [rerankSelection, List.filterMap_cons, hi, hlt]
      rw [hsel]
      unfold rerankSelect
      rw [if_pos hlt, pyIndex_eq_elem docs i hi hlt, ih hrest]
      rfl
    · have hsel : rerankSelection docs (i :: is) = rerankSelection docs is := by
        simp [rerankSelection, List.filterMap_cons, hlt]
      rw [hsel]
      unfold rerankSelect
      rw [if_neg hlt]
      exact ih hrest

theorem rerankSelect_oob (docs : List String) (l : List Int)
    (h : ∃ i ∈ l, i < -(docs.length : Int)) :
    rerankSelect docs l =
      (MRes.exn (PyExn.other "IndexError: list index out of range"), []) := by
  induction l with
  | nil => simp at h
  | cons i is ih =>
    unfold rerankSelect
    by_cases hoob : i < -(docs.length : Int)
    · rw [if_pos (by omega), pyIndex_oob docs i hoob]
      rfl
    · have hrest : ∃ j ∈ is, j < -(docs.length : Int) := by
        rcases h with ⟨j, hj, hjlt⟩
        cases hj with
        | head => exact absurd hjlt hoob
        | tail _ hjm => exact ⟨j, hjm, hjlt⟩
      by_cases hlt : i < (docs.length : Int)
      · rw [if_pos hlt, pyIndex_eq_elem docs i (by omega) hlt, ih hrest]
        rfl
      · rw [if_neg hlt]
        exact ih hrest

/-- Closed form of Agent._rerank_with_gemini when the model handle is present,
the documents are nonempty, the model call returns text and the parse is not a
list: the first-five fallback. -/
theorem rerank_with_gemini_notList (o : Oracles) (q : String) (docs : List String)
    (f : LLMModel) (t : String) (hllm : o.rerankerLLM = some f)
    (hd : docs.isEmpty = false)
    (hf : f (RERANKING_PROMPT_fmt q (formattedDocuments docs)) = Except.ok t)
    (hp : o.rerankParse t = RerankParsed.notList) :
    Agent.rerank_with_gemini o q docs =
      (MRes.ok (docs.take 5),
       [Event.rerankCall,
        Event.llmCall "reranker" (RERANKING_PROMPT_fmt q (formattedDocuments docs))]) := by
  unfold Agent.rerank_with_gemini call_llm_with_retry
  simp only [hllm, hd, hf, Option.isNone_some, Bool.or_self, Bool.false_eq_true, if_false,
    M.emit, M.pure, M.bind_mk_ok]
  rw [hp]
  rfl

/-- Closed form of Agent._rerank_with_gemini when the parse is an integer list:
the selection comprehension decides the outcome. -/
theorem rerank_with_gemini_intList (o : Oracles) (q : String) (docs : List String)
    (f : LLMModel) (t : String) (l : List Int) (hllm : o.rerankerLLM = some f)
    (hd : docs.isEmpty = false)
    (hf : f (RERANKING_PROMPT_fmt q (formattedDocuments docs)) = Except.ok t)
    (hp : o.rerankParse t = RerankParsed.intList l) :
    Agent.rerank_with_gemini o q docs =
      ((rerankSelect docs l).1,
       Event.rerankCall ::
         Event.llmCall "reranker" (RERANKING_PROMPT_fmt q (formattedDocuments docs)) ::
         (rerankSelect docs l).2) := by
  unfold Agent.rerank_with_gemini call_llm_with_retry
  simp only [hllm, hd, hf, Option.isNone_some, Bool.or_self, Bool.false_eq_true, if_false,
    M.emit, M.pure, M.bind_mk_ok]
  rw [hp]
  rfl

/-- Counterexample to C8 as stated: when the reranking model's parsed response
is the empty list, the reranker returns the empty list — not the first five
input documents — because the code only guards against a non-list value. -/
theorem rerank_empty_list_cex :
    (Agent.rerank_with_gemini
        { baseOracles with
          rerankerLLM := some fun _ => Except.ok "rr"
          rerankParse := fun _ => RerankParsed.intList [] }
        "q" ["d1", "d2", "d3", "d4", "d5", "d6"]).1 = MRes.ok ([] : List String) ∧
    ([] : List String) ≠ ["d1", "d2", "d3", "d4", "d5", "d6"].take 5 := by
  constructor
  · rfl
  · decide

/-- C8 amended: with a live reranking model handle and nonempty documents,
a parsed response that is not a list falls back to the first five documents
unchanged; a parsed empty list yields the empty list; for a parsed integer
list, indices at or above the document count are silently dropped and indices
in [-len, len) subscript Python-style (negatives wrap from the end), so the
output draws only on input documents; an index below -len raises IndexError,
which escapes the reranker. -/
theorem rerank_fallback_and_index_semantics (o : Oracles) (q : String)
    (docs : List String) (f : LLMModel) (t : String)
    (hllm : o.rerankerLLM = some f) (hd : docs.isEmpty = false)
    (hf : f (RERANKING_PROMPT_fmt q (formattedDocuments docs)) = Except.ok t) :
    (o.rerankParse t = RerankParsed.notList →
      Agent.rerank_with_gemini o q docs =
        (MRes.ok (docs.take 5),
         [Event.rerankCall,
          Event.llmCall "reranker" (RERANKING_PROMPT_fmt q (formattedDocuments docs))])) ∧
    (o.rerankParse t = RerankParsed.intList [] →
      Agent.rerank_with_gemini o q docs =
        (MRes.ok ([] : List String),
         [Event.rerankCall,
          Event.llmCall "reranker" (RERANKING_PROMPT_fmt q (formattedDocuments docs))])) ∧
    (∀ l, o.rerankParse t = RerankParsed.intList l →
      (∀ i ∈ l, -(docs.length : Int) ≤ i) →
      Agent.rerank_with_gemini o q docs =
        (MRes.ok (rerankSelection docs l),
         [Event.rerankCall,
          Event.llmCall "reranker" (RERANKING_PROMPT_fmt q (formattedDocuments docs))]) ∧
      ∀ d ∈ rerankSelection docs l, d ∈ docs) ∧
    (∀ l, o.rerankParse t = RerankParsed.intList l →
      (∃ i ∈ l, i < -(docs.length : Int)) →
      Agent.rerank_with_gemini o q docs =
        (MRes.exn (PyExn.other "IndexError: list index out of range"),
         [Event.rerankCall,
          Event.llmCall "reranker" (RERANKING_PROMPT_fmt q (formattedDocuments docs))])) := by
  refine ⟨?_, ?_, ?_, ?_⟩
  · intro hp
    exact rerank_with_gemini_notList o q docs f t hllm hd hf hp
  · intro hp
    rw [rerank_with_gemini_intList o q docs f t [] hllm hd hf hp]
    rfl
  · intro l hp hge
    constructor
    · rw [rerank_with_gemini_intList o q docs f t l hllm hd hf hp,
        rerankSelect_ok docs l hge]
    · intro d hdm
      rcases List.mem_filterMap.mp hdm with ⟨i, him, hsel⟩
      by_cases hc : -(docs.length : Int) ≤ i ∧ i < (docs.length : Int)
      · rw [if_pos hc] at hsel
        cases hsel
        exact pyElem_mem docs i hc.1 hc.2
      · rw [if_neg hc] at hsel
        cases hsel
  · intro l hp hoob
    rw [rerank_with_gemini_intList o q docs f t l hllm hd hf hp,
      rerankSelect_oob docs l hoob]

/-- Witness for the amended C8: indices 1, -1, 7, 1 against six documents pick
the second document, the last document, drop 7, and keep the duplicate. -/
theorem rerank_fallback_and_index_semantics_witness :
    Agent.rerank_with_gemini
        { baseOracles with
          rerankerLLM := some fun _ => Except.ok "rr"
          rerankParse := fun _ => RerankParsed.intList [1, -1, 7, 1] }
        "q" ["d1", "d2", "d3", "d4", "d5", "d6"] =
      (MRes.ok ["d2", "d6", "d2"],
       [Event.rerankCall,
        Event.llmCall "reranker"
          (RERANKING_PROMPT_fmt "q"
            (formattedDocuments ["d1", "d2", "d3", "d4", "d5", "d6"]))]) := by
  have h := ((rerank_fallback_and_index_semantics
      { baseOracles with
        rerankerLLM := some fun _ => Except.ok "rr"
        rerankParse := fun _ => RerankParsed.intList [1, -1, 7, 1] }
      "q" ["d1", "d2", "d3", "d4", "d5", "d6"]
      (fun _ => Except.ok "rr") "rr" rfl rfl rfl).2.2.1
      [1, -1, 7, 1] rfl (by decide)).1
  have hsel : rerankSelection ["d1", "d2", "d3", "d4", "d5", "d6"] [1, -1, 7, 1] =
      ["d2", "d6", "d2"] := by decide
  rw [hsel] at h
  exact h

/-! ## C6 (corrected): the references section -/

theorem mem_insertAsc (x a : Int) (l : List Int) :
    a ∈ insertAsc x l ↔ a = x ∨ a ∈ l := by
  induction l with
  | nil => simp [insertAsc]
  | cons y ys ih =>
    unfold insertAsc
    by_cases h1 : x < y
    · simp [h1]
    · by_cases h2 : x = y
      · subst h2
        rw [if_neg h1, if_pos rfl]
        constructor
        · exact fun h => Or.inr h
        · rintro (rfl | h)
          · exact List.mem_cons_self _ _
          · exact h
      · simp [h1, h2, ih]
        constructor
        · rintro (h | h | h)
          · exact Or.inr (Or.inl h)
          · exact Or.inl h
          · exact Or.inr (Or.inr h)
        · rintro (h | h | h)
          · exact Or.inr (Or.inl h)
          · exact Or.inl h
          · exact Or.inr (Or.inr h)

theorem mem_sortedDedup (a : Int) (l : List Int) : a ∈ sortedDedup l ↔ a ∈ l := by
  induction l with
  | nil => simp [sortedDedup]
  | cons x xs ih =>
    unfold sortedDedup at ih ⊢
    rw [List.foldr_cons, mem_insertAsc, ih, List.mem_cons]

theorem sorted_insertAsc (x : Int) (l : List Int) (h : List.Sorted (· < ·) l) :
    List.Sorted (· < ·) (insertAsc x l) := by
  induction l with
  | nil => simp [insertAsc]
  | cons y ys ih =>
    unfold insertAsc
    by_cases h1 : x < y
    · rw [if_pos h1]
      refine List.sorted_cons.mpr ⟨?_, h⟩
      intro b hb
      rcases List.mem_cons.mp hb with rfl | hbm
      · exact h1
      · exact lt_trans h1 ((List.sorted_cons.mp h).1 b hbm)
    · by_cases h2 : x = y
      · rw [if_neg h1, if_pos h2]
        exact h
      · rw [if_neg h1, if_neg h2]
        have hys := (List.sorted_cons.mp h).2
        refine List.sorted_cons.mpr ⟨?_, ih hys⟩
        intro b hb
        rcases (mem_insertAsc x b ys).mp hb with rfl | hbm
        · omega
        · exact (List.sorted_cons.mp h).1 b hbm

theorem sorted_sortedDedup (l : List Int) : List.Sorted (· < ·) (sortedDedup l) := by
  induction l with
  | nil => simp [sortedDedup]
  | cons x xs ih => exact sorted_insertAsc x (sortedDedup xs) ih

/-- The dedup-accumulating append that collectLinks performs on in-range links:
each new link is appended only if unseen. -/
def dedupAppend (acc : List String) : List String → List String
  | [] => acc
  | x :: xs => if x ∈ acc then dedupAppend acc xs else dedupAppend (acc ++ [x]) xs

theorem mem_dedupAppend (a : String) (l acc : List String) :
    a ∈ dedupAppend acc l ↔ a ∈ acc ∨ a ∈ l := by
  induction l generalizing acc with
  | nil => simp [dedupAppend]
  | cons x xs ih =>
    unfold dedupAppend
    by_cases hx : x ∈ acc
    · rw [if_pos hx, ih]
      constructor
      · rintro (h | h)
        · exact Or.inl h
        · exact Or.inr (List.mem_cons_of_mem x h)
      · rintro (h | h)
        · exact Or.inl h
        · rcases List.mem_cons.mp h with rfl | hm
          · exact Or.inl hx
          · exact Or.inr hm
    · rw [if_neg hx, ih]
      simp [List.mem_append, List.mem_cons]
      tauto

theorem nodup_dedupAppend (l acc : List String) (h : acc.Nodup) :
    (dedupAppend acc l).Nodup := by
  induction l generalizing acc with
  | nil => exact h
  | cons x xs ih =>
    unfold dedupAppend
    by_cases hx : x ∈ acc
    · rw [if_pos hx]
      exact ih acc h
    · rw [if_neg hx]
      refine ih (acc ++ [x]) ?_
      simpa [List.nodup_append, h] using hx

/-- collectLinks never raises and performs exactly the dedup-append of the
below-bound links when every index is at least -len: each passing index
subscripts the pool Python-style (negatives select from the end). -/
theorem collectLinks_eq (links : List String) (idxs : List Int) (acc : List String)
    (h : ∀ i ∈ idxs, -(links.length : Int) ≤ i) :
    collectLinks links idxs acc =
      Except.ok (dedupAppend acc (idxs.filterMap fun i =>
        if i < (links.length : Int) then some (pyElem links i) else none)) := by
  induction idxs generalizing acc with
  | nil => rfl
  | cons i is ih =>
    have hi : -(links.length : Int) ≤ i := h i (List.mem_cons_self i is)
    have hrest : ∀ j ∈ is, -(links.length : Int) ≤ j :=
      fun j hj => h j (List.mem_cons_of_mem i hj)
    unfold collectLinks
    by_cases hlt : i < (links.length : Int)
    · rw [if_pos hlt, pyIndex_eq_elem links i hi hlt]
      simp only [List.filterMap_cons, if_pos hlt]
      by_cases hmem : pyElem links i ∈ acc
      · rw [if_pos hmem, ih acc hrest]
        conv_rhs => unfold dedupAppend
        rw [if_pos hmem]
      · rw [if_neg hmem, ih (acc ++ [pyElem links i]) hrest]
        conv_rhs => unfold dedupAppend
        rw [if_neg hmem]
    · rw [if_neg hlt]
      simp only [List.filterMap_cons, if_neg hlt]
      exact ih acc hrest

/-- A strictly sorted list of integers all at least -1 that contains -1 starts
with it. -/
theorem sorted_neg_one_head {l : List Int} (hs : List.Sorted (· < ·) l)
    (hm : (-1 : Int) ∈ l) (hb : ∀ i ∈ l, (-1 : Int) ≤ i) :
    ∃ rest, l = (-1 : Int) :: rest := by
  cases l with
  | nil => simp at hm
  | cons a t =>
    rcases List.mem_cons.mp hm with h | hmt
    · exact ⟨t, h ▸ rfl⟩
    · have h1 := (List.sorted_cons.mp hs).1 _ hmt
      have h2 := hb a (List.mem_cons_self a t)
      omega

/-- The links the appended references section lists: the below-bound cited
indices in ascending order, each subscripted into the pool Python-style,
deduplicated keeping the first (lowest-index) occurrence. -/
def citedLinks (text : String) (links : List String) : List String :=
  dedupAppend [] ((usedIndicesSorted text).filterMap fun i =>
    if i < (links.length : Int) then some (pyElem links i) else none)

/-- Counterexample to C6 as stated: an answer citing [2] before [1] yields a
references section listing link 1 before link 2 — ascending bracket-number
order — not first-use order, which would list link 2 first. -/
theorem references_not_first_use_order_cex :
    appendReferences "see [2] then [1]." ["L1", "L2", "L3"] =
      Except.ok ("see [2] then [1].\n\n**References**\n1. L1\n2. L2") ∧
    ("see [2] then [1].\n\n**References**\n1. L1\n2. L2" : String) ≠
      "see [2] then [1].\n\n**References**\n1. L2\n2. L1" := by
  constructor
  · rfl
  · decide

/-- C6 amended: for every answer text and citation-link pool, the used indices
are exactly the cited bracket numbers each minus one, sorted ascending — so
references are ordered by ascending citation number, not by first use — all at
least -1, and the listed links are the distinct pool entries selected by the
indices below the pool length, Python-subscripted (a cited [0] gives index -1
and selects the LAST link), deduplicated keeping the smallest-index occurrence;
retrieved-but-uncited links are omitted.  The post-processing returns the
stripped text when nothing is cited, raises IndexError when [0] is cited
against an empty pool, and otherwise appends exactly the selected links. -/
theorem references_sorted_by_citation_number (text : String) (links : List String) :
    (∀ i, i ∈ usedIndicesSorted text ↔
      ∃ n ∈ scanCitations text.data, (n : Int) - 1 = i) ∧
    (∀ i ∈ usedIndicesSorted text, (-1 : Int) ≤ i) ∧
    List.Sorted (· < ·) (usedIndicesSorted text) ∧
    (citedLinks text links).Nodup ∧
    (∀ s, s ∈ citedLinks text links ↔
      ∃ i ∈ usedIndicesSorted text, i < (links.length : Int) ∧ pyElem links i = s) ∧
    appendReferences text links =
      (if (usedIndicesSorted text).isEmpty then Except.ok (pyStrip text)
       else if (-1 : Int) ∈ usedIndicesSorted text ∧ links.length = 0 then
         Except.error "IndexError: list index out of range"
       else Except.ok (renderRefs (pyStrip text) (citedLinks text links))) := by
  have hmemidx : ∀ i, i ∈ usedIndicesSorted text ↔
      ∃ n ∈ scanCitations text.data, (n : Int) - 1 = i := by
    intro i
    unfold usedIndicesSorted
    rw [mem_sortedDedup]
    exact List.mem_map
  have hlow : ∀ i ∈ usedIndicesSorted text, (-1 : Int) ≤ i := by
    intro i hi
    rcases (hmemidx i).mp hi with ⟨n, hn, rfl⟩
    omega
  refine ⟨hmemidx, hlow, sorted_sortedDedup _, nodup_dedupAppend _ [] List.nodup_nil,
    ?_, ?_⟩
  · intro s
    unfold citedLinks
    rw [mem_dedupAppend]
    simp only [List.mem_filterMap, List.not_mem_nil, false_or]
    constructor
    · rintro ⟨i, hi, hsel⟩
      by_cases hc : i < (links.length : Int)
      · rw [if_pos hc] at hsel
        cases hsel
        exact ⟨i, hi, hc, rfl⟩
      · rw [if_neg hc] at hsel
        cases hsel
    · rintro ⟨i, hi, hc, rfl⟩
      exact ⟨i, hi, by rw [if_pos hc]⟩
  · unfold appendReferences
    by_cases hempty : (usedIndicesSorted text).isEmpty
    · rw [if_pos hempty, if_pos hempty]
    · rw [if_neg hempty, if_neg hempty]
      by_cases herr : (-1 : Int) ∈ usedIndicesSorted text ∧ links.length = 0
      · rw [if_pos herr]
        obtain ⟨hm1, hlen⟩ := herr
        have hnil : links = [] := List.length_eq_zero.mp hlen
        have hsorted : List.Sorted (· < ·) (usedIndicesSorted text) :=
          sorted_sortedDedup _
        obtain ⟨rest, hused⟩ := sorted_neg_one_head hsorted hm1 hlow
        rw [hused, hnil]
        unfold collectLinks
        rw [if_pos (by decide), pyIndex_oob [] (-1) (by decide)]
      · rw [if_neg herr]
        have hrange : ∀ i ∈ usedIndicesSorted text, -(links.length : Int) ≤ i := by
          intro i hi
          have h1 := hlow i hi
          by_cases hl : links.length = 0
          · have hne : (-1 : Int) ∉ usedIndicesSorted text := fun hc => herr ⟨hc, hl⟩
            have : i ≠ (-1 : Int) := fun hc => hne (hc ▸ hi)
            omega
          · have : 1 ≤ links.length := Nat.one_le_iff_ne_zero.mpr hl
            omega
        rw [collectLinks_eq links (usedIndicesSorted text) [] hrange]
        rfl

/-- Witness for the amended C6: the spec example citing [1] and [3] but not
[2] lists exactly links 1 and 3; a text citing [0] against a two-link pool
lists the last link, and against an empty pool raises IndexError. -/
theorem references_sorted_by_citation_number_witness :
    appendReferences "A [1] B [3] C [1]" ["L1", "L2", "L3"] =
      (if (usedIndicesSorted "A [1] B [3] C [1]").isEmpty
       then Except.ok (pyStrip "A [1] B [3] C [1]")
       else if (-1 : Int) ∈ usedIndicesSorted "A [1] B [3] C [1]" ∧
           (["L1", "L2", "L3"] : List String).length = 0 then
         Except.error "IndexError: list index out of range"
       else Except.ok (renderRefs (pyStrip "A [1] B [3] C [1]")
         (citedLinks "A [1] B [3] C [1]" ["L1", "L2", "L3"]))) ∧
    citedLinks "A [1] B [3] C [1]" ["L1", "L2", "L3"] = ["L1", "L3"] ∧
    appendReferences "see [0]." ["L1", "L2"] =
      Except.ok ("see [0]." ++ "\n\n**References**\n" ++ "1. L2") ∧
    appendReferences "see [0]." [] =
      Except.error "IndexError: list index out of range" :=
  ⟨(references_sorted_by_citation_number "A [1] B [3] C [1]"
      ["L1", "L2", "L3"]).2.2.2.2.2,
   by decide, rfl, rfl⟩

/-! ## C4: coverage-bounded planning -/

theorem pyRoundHalfEven_le (q : ℚ) :
    ⌊q⌋ ≤ pyRoundHalfEven q ∧ pyRoundHalfEven q ≤ ⌊q⌋ + 1 := by
  unfold pyRoundHalfEven
  split_ifs <;> omega

theorem pyRoundHalfEven_mono {a b : ℚ} (h : a ≤ b) :
    pyRoundHalfEven a ≤ pyRoundHalfEven b := by
  have hfab : ⌊a⌋ ≤ ⌊b⌋ := Int.floor_le_floor h
  rcases lt_or_eq_of_le hfab with hlt | heq
  · have h1 := (pyRoundHalfEven_le a).2
    have h2 := (pyRoundHalfEven_le b).1
    omega
  · unfold pyRoundHalfEven
    rw [← heq]
    have hab : a - (⌊a⌋ : ℚ) ≤ b - (⌊a⌋ : ℚ) := by linarith
    split_ifs <;> first | omega | linarith

theorem pyRound2_mono {a b : ℚ} (h : a ≤ b) : pyRound2 a ≤ pyRound2 b := by
  unfold pyRound2
  have hm : pyRoundHalfEven (a * 100) ≤ pyRoundHalfEven (b * 100) :=
    pyRoundHalfEven_mono (by linarith)
  have hc : (pyRoundHalfEven (a * 100) : ℚ) ≤ (pyRoundHalfEven (b * 100) : ℚ) := by
    exact_mod_cast hm
  linarith

theorem mem_insertByScoreDesc (x a : ScoredTool) (l : List ScoredTool) :
    a ∈ insertByScoreDesc x l ↔ a = x ∨ a ∈ l := by
  induction l with
  | nil => simp [insertByScoreDesc]
  | cons y ys ih =>
    unfold insertByScoreDesc
    by_cases hc : y.score ≤ x.score
    · simp [hc]
    · rw [if_neg hc]
      simp only [List.mem_cons, ih]
      tauto

theorem mem_sortByScoreDesc (a : ScoredTool) (l : List ScoredTool) :
    a ∈ sortByScoreDesc l ↔ a ∈ l := by
  induction l with
  | nil => simp [sortByScoreDesc]
  | cons x xs ih =>
    unfold sortByScoreDesc at ih ⊢
    rw [List.foldr_cons, mem_insertByScoreDesc, ih, List.mem_cons]

theorem sorted_insertByScoreDesc (x : ScoredTool) (l : List ScoredTool)
    (h : List.Pairwise (fun u v => v.score ≤ u.score) l) :
    List.Pairwise (fun u v => v.score ≤ u.score) (insertByScoreDesc x l) := by
  induction l with
  | nil => simp [insertByScoreDesc]
  | cons y ys ih =>
    unfold insertByScoreDesc
    by_cases hc : y.score ≤ x.score
    · rw [if_pos hc]
      refine List.pairwise_cons.mpr ⟨?_, h⟩
      intro b hb
      rcases List.mem_cons.mp hb with rfl | hbm
      · exact hc
      · exact le_trans ((List.pairwise_cons.mp h).1 b hbm) hc
    · rw [if_neg hc]
      refine List.pairwise_cons.mpr ⟨?_, ih (List.pairwise_cons.mp h).2⟩
      intro b hb
      rcases (mem_insertByScoreDesc x b ys).mp hb with rfl | hbm
      · exact le_of_not_le hc
      · exact (List.pairwise_cons.mp h).1 b hbm

theorem sorted_sortByScoreDesc (l : List ScoredTool) :
    List.Pairwise (fun u v => v.score ≤ u.score) (sortByScoreDesc l) := by
  induction l with
  | nil => simp [sortByScoreDesc]
  | cons x xs ih => exact sorted_insertByScoreDesc x (sortByScoreDesc xs) ih

/-- Stability of the insertion step: an element passes exactly the strictly
larger scores, so for any fixed score the filtered subsequence gains the new
element at the front when it has that score and is otherwise unchanged. -/
theorem filter_insertByScoreDesc (x : ScoredTool) (l : List ScoredTool) (s : ℚ) :
    (insertByScoreDesc x l).filter (fun t => t.score == s) =
      if x.score = s then x :: l.filter (fun t => t.score == s)
      else l.filter (fun t => t.score == s) := by
  induction l with
  | nil =>
    by_cases hx : x.score = s <;> simp [insertByScoreDesc, List.filter_cons, hx]
  | cons y ys ih =>
    unfold insertByScoreDesc
    by_cases hc : y.score ≤ x.score
    · rw [if_pos hc]
      by_cases hx : x.score = s <;> simp [List.filter_cons, hx]
    · rw [if_neg hc]
      by_cases hy : y.score = s
      · by_cases hx : x.score = s
        · exact absurd (hx.trans hy.symm ▸ le_refl x.score) (by rw [hx, ← hy] at hc; exact hc)
        · simp [List.filter_cons, hy, hx, ih]
      · simp [List.filter_cons, hy, ih]

/-- Stability of the sort: for every score value, the elements carrying it
appear in the sorted list exactly as they appear in the input — ties are broken
by original table order. -/
theorem sortByScoreDesc_stable (l : List ScoredTool) (s : ℚ) :
    (sortByScoreDesc l).filter (fun t => t.score == s) =
      l.filter (fun t => t.score == s) := by
  induction l with
  | nil => simp [sortByScoreDesc]
  | cons x xs ih =>
    unfold sortByScoreDesc at ih ⊢
    rw [List.foldr_cons, filter_insertByScoreDesc]
    by_cases hx : x.score = s
    · rw [if_pos hx, ih, List.filter_cons, if_pos (by simpa using hx)]
    · rw [if_neg hx, ih, List.filter_cons, if_neg (by simpa using hx)]

theorem planLoop_floor (th : ℚ) (l : List ScoredTool) (total : ℚ) :
    ∀ it ∈ planLoop th l total, ¬ it.estimated_coverage ≤ 1/10 := by
  induction l generalizing total with
  | nil => intro it hit; simp [planLoop] at hit
  | cons t rest ih =>
    intro it hit
    unfold planLoop at hit
    by_cases hskip : pyRound2 t.score ≤ 1/10
    · rw [if_pos hskip] at hit
      exact ih total it hit
    · rw [if_neg hskip] at hit
      by_cases hth : th ≤ total + pyRound2 t.score
      · rw [if_pos hth] at hit
        rcases List.mem_singleton.mp hit with rfl
        simpa using hskip
      · rw [if_neg hth] at hit
        rcases List.mem_cons.mp hit with rfl | hm
        · simpa using hskip
        · exact ih _ it hm

theorem planLoop_prefix_lt (th : ℚ) (l : List ScoredTool) (total : ℚ) (h : total < th) :
    total + (((planLoop th l total).dropLast).map ToolPlanItem.estimated_coverage).sum
      < th := by
  induction l generalizing total with
  | nil => simpa [planLoop] using h
  | cons t rest ih =>
    unfold planLoop
    by_cases hskip : pyRound2 t.score ≤ 1/10
    · rw [if_pos hskip]
      exact ih total h
    · rw [if_neg hskip]
      by_cases hth : th ≤ total + pyRound2 t.score
      · rw [if_pos hth]
        simpa using h
      · rw [if_neg hth]
        have hlt : total + pyRound2 t.score < th := lt_of_not_le hth
        have hrec := ih (total + pyRound2 t.score) hlt
        cases hpl : planLoop th rest (total + pyRound2 t.score) with
        | nil => simpa using h
        | cons y ys =>
          rw [hpl] at hrec
          rw [List.dropLast_cons₂, List.map_cons, List.sum_cons]
          linarith

theorem planLoop_reach (th : ℚ) (l : List ScoredTool) (total : ℚ) :
    th ≤ total + ((planLoop th l total).map ToolPlanItem.estimated_coverage).sum ∨
    ∀ t ∈ l, pyRound2 t.score ≤ 1/10 ∨
      ∃ it ∈ planLoop th l total, it.tool_name = t.name ∧
        it.estimated_coverage = pyRound2 t.score := by
  induction l generalizing total with
  | nil =>
    right
    intro t ht
    simp at ht
  | cons t rest ih =>
    unfold planLoop
    by_cases hskip : pyRound2 t.score ≤ 1/10
    · rw [if_pos hskip]
      rcases ih total with hl | hr
      · exact Or.inl hl
      · right
        intro u hu
        rcases List.mem_cons.mp hu with rfl | hm
        · exact Or.inl hskip
        · exact hr u hm
    · rw [if_neg hskip]
      by_cases hth : th ≤ total + pyRound2 t.score
      · rw [if_pos hth]
        left
        simpa using hth
      · rw [if_neg hth]
        rcases ih (total + pyRound2 t.score) with hl | hr
        · left
          rw [List.map_cons, List.sum_cons]
          linarith
        · right
          intro u hu
          rcases List.mem_cons.mp hu with rfl | hm
          · exact Or.inr ⟨⟨u.name, pyRound2 u.score⟩, List.mem_cons_self _ _, rfl, rfl⟩
          · rcases hr u hm with h1 | ⟨it, hitm, hit⟩
            · exact Or.inl h1
            · exact Or.inr ⟨it, List.mem_cons_of_mem _ hitm, hit⟩

theorem planLoop_source (th : ℚ) (l : List ScoredTool) (total : ℚ) :
    ∀ it ∈ planLoop th l total, ∃ t ∈ l, it.tool_name = t.name ∧
      it.estimated_coverage = pyRound2 t.score := by
  induction l generalizing total with
  | nil => intro it hit; simp [planLoop] at hit
  | cons t rest ih =>
    intro it hit
    unfold planLoop at hit
    by_cases hskip : pyRound2 t.score ≤ 1/10
    · rw [if_pos hskip] at hit
      rcases ih total it hit with ⟨u, hu, h⟩
      exact ⟨u, List.mem_cons_of_mem _ hu, h⟩
    · rw [if_neg hskip] at hit
      by_cases hth : th ≤ total + pyRound2 t.score
      · rw [if_pos hth] at hit
        rcases List.mem_singleton.mp hit with rfl
        exact ⟨t, List.mem_cons_self _ _, rfl, rfl⟩
      · rw [if_neg hth] at hit
        rcases List.mem_cons.mp hit with rfl | hm
        · exact ⟨t, List.mem_cons_self _ _, rfl, rfl⟩
        · rcases ih _ it hm with ⟨u, hu, h⟩
          exact ⟨u, List.mem_cons_of_mem _ hu, h⟩

theorem planLoop_pairwise (th : ℚ) (l : List ScoredTool) (total : ℚ)
    (hl : List.Pairwise (fun u v => v.score ≤ u.score) l) :
    List.Pairwise (fun a b => b.estimated_coverage ≤ a.estimated_coverage)
      (planLoop th l total) := by
  induction l generalizing total with
  | nil => simp [planLoop]
  | cons t rest ih =>
    have hhead := (List.pairwise_cons.mp hl).1
    have hrest := (List.pairwise_cons.mp hl).2
    unfold planLoop
    by_cases hskip : pyRound2 t.score ≤ 1/10
    · rw [if_pos hskip]
      exact ih total hrest
    · rw [if_neg hskip]
      by_cases hth : th ≤ total + pyRound2 t.score
      · rw [if_pos hth]
        simp
      · rw [if_neg hth]
        refine List.pairwise_cons.mpr ⟨?_, ih (total + pyRound2 t.score) hrest⟩
        intro b hb
        rcases planLoop_source th rest (total + pyRound2 t.score) b hb with
          ⟨u, hu, _, hcov⟩
        rw [hcov]
        exact pyRound2_mono (hhead u hu)

/-- C4: for every metadata and persona (and a positive coverage threshold, the
configured default being 0.85), the plan contains no item at or below the 0.1
floor; the cumulative coverage of all items before the last stays strictly
below the threshold; the cumulative coverage including the last reaches the
threshold unless every table tool was either planned or floored; items are
ordered by descending estimated coverage; and the underlying sort is stable,
so ties keep the original table order. -/
theorem plan_coverage_bounded (p : ToolPlanner) (query_meta : QueryMetadata)
    (persona : String) (hth : 0 < p.coverage_threshold) :
    (∀ it ∈ p.plan query_meta persona, ¬ it.estimated_coverage ≤ 1/10) ∧
    (((p.plan query_meta persona).dropLast.map ToolPlanItem.estimated_coverage).sum
        < p.coverage_threshold) ∧
    (p.coverage_threshold ≤
        ((p.plan query_meta persona).map ToolPlanItem.estimated_coverage).sum ∨
      ∀ t ∈ scoredToolsOf (personaPrefsOf p.persona_map persona) query_meta.intent,
        pyRound2 t.score ≤ 1/10 ∨
          ∃ it ∈ p.plan query_meta persona, it.tool_name = t.name ∧
            it.estimated_coverage = pyRound2 t.score) ∧
    List.Pairwise (fun a b => b.estimated_coverage ≤ a.estimated_coverage)
      (p.plan query_meta persona) ∧
    (∀ s, (sortByScoreDesc (scoredToolsOf (personaPrefsOf p.persona_map persona)
            query_meta.intent)).filter (fun t => t.score == s) =
          (scoredToolsOf (personaPrefsOf p.persona_map persona)
            query_meta.intent).filter (fun t => t.score == s)) := by
  unfold ToolPlanner.plan
  by_cases hempty : (personaPrefsOf p.persona_map persona).isEmpty
  · rw [if_pos hempty]
    have hnil : personaPrefsOf p.persona_map persona = [] :=
      List.isEmpty_iff.mp hempty
    refine ⟨by simp, by simpa using hth, Or.inr ?_, by simp, ?_⟩
    · intro t ht
      rw [hnil] at ht
      simp [scoredToolsOf, dictOfPairs] at ht
    · intro s
      rw [hnil]
      simp [scoredToolsOf, dictOfPairs, sortByScoreDesc]
  · rw [if_neg hempty]
    refine ⟨planLoop_floor _ _ _, ?_, ?_, ?_, fun s => sortByScoreDesc_stable _ s⟩
    · have := planLoop_prefix_lt p.coverage_threshold
        (sortByScoreDesc (scoredToolsOf (personaPrefsOf p.persona_map persona)
          query_meta.intent)) 0 hth
      linarith
    · rcases planLoop_reach p.coverage_threshold
        (sortByScoreDesc (scoredToolsOf (personaPrefsOf p.persona_map persona)
          query_meta.intent)) 0 with hl | hr
      · left
        linarith
      · right
        intro t ht
        exact hr t ((mem_sortByScoreDesc t _).mpr ht)
    · exact planLoop_pairwise _ _ 0 (sorted_sortByScoreDesc _)

/-- Witness for C4 at the default threshold 0.85 with a two-tool default table
and a fact-lookup intent. -/
theorem plan_coverage_bounded_witness :
    0 < (ToolPlanner.mk (85/100) (fun k =>
        if k = "default" then
          some [⟨"query_knowledge_graph", 1⟩, ⟨"retrieve_general_text", 8/10⟩]
        else none)).coverage_threshold ∧
    ((ToolPlanner.mk (85/100) (fun k =>
        if k = "default" then
          some [⟨"query_knowledge_graph", 1⟩, ⟨"retrieve_general_text", 8/10⟩]
        else none)).plan ⟨"specific_fact_lookup", [], true, []⟩ "Clinical Analyst" =
      [⟨"query_knowledge_graph", 9/10⟩]) ∧
    (∀ it ∈ (ToolPlanner.mk (85/100) (fun k =>
        if k = "default" then
          some [⟨"query_knowledge_graph", 1⟩, ⟨"retrieve_general_text", 8/10⟩]
        else none)).plan ⟨"specific_fact_lookup", [], true, []⟩ "Clinical Analyst",
      ¬ it.estimated_coverage ≤ 1/10) ∧
    (((ToolPlanner.mk (85/100) (fun k =>
        if k = "default" then
          some [⟨"query_knowledge_graph", 1⟩, ⟨"retrieve_general_text", 8/10⟩]
        else none)).plan ⟨"specific_fact_lookup", [], true, []⟩
          "Clinical Analyst").dropLast.map ToolPlanItem.estimated_coverage).sum
      < 85/100 := by
  have h := plan_coverage_bounded (ToolPlanner.mk (85/100) (fun k =>
      if k = "default" then
        some [⟨"query_knowledge_graph", 1⟩, ⟨"retrieve_general_text", 8/10⟩]
      else none)) ⟨"specific_fact_lookup", [], true, []⟩ "Clinical Analyst"
    (by norm_num)
  exact ⟨by norm_num, by with_unfolding_all decide, h.1, h.2.1⟩

/-! ## C3 and C5: events of the single-step tool flow -/

theorem call_llm_events (tag : String) (model : Option LLMModel) (prompt : String) :
    (call_llm_with_retry tag model prompt).2 = [] ∨
    (call_llm_with_retry tag model prompt).2 = [Event.llmCall tag prompt] := by
  unfold call_llm_with_retry
  cases model with
  | none => left; rfl
  | some f =>
    right
    cases hf : f prompt with
    | ok t => simp only [hf]; rfl
    | error e => simp only [hf]; rfl

theorem rerankSelect_events (docs : List String) (l : List Int) :
    (rerankSelect docs l).2 = [] := by
  induction l with
  | nil => rfl
  | cons i is ih =>
    unfold rerankSelect
    by_cases hlt : i < (docs.length : Int)
    · rw [if_pos hlt]
      cases hp : pyIndex docs i with
      | ok d =>
        simp only [hp]
        unfold M.bind
        cases h1 : (rerankSelect docs is).1 <;> simp [M.pure, h1, ih]
      | error m => simp only [hp]; rfl
    · rw [if_neg hlt]
      exact ih

theorem rerank_no_routerCall (o : Oracles) (q : String) (docs : List String)
    (t : String) : Event.routerCall t ∉ (Agent.rerank_with_gemini o q docs).2 := by
  unfold Agent.rerank_with_gemini
  apply M.bind_events_subset
  · simp [M.emit]
  · intro _
    split
    · simp [M.pure]
    · apply M.bind_events_subset
      · rcases call_llm_events "reranker" o.rerankerLLM
          (RERANKING_PROMPT_fmt q (formattedDocuments docs)) with h | h <;> simp [h]
      · intro r
        match r with
        | none => simp [M.pure]
        | some tx =>
          cases hp : o.rerankParse tx with
          | notList => simp [hp, M.pure]
          | intList l => simp [hp, rerankSelect_events]

theorem call_llm_no_routerCall (tag : String) (model : Option LLMModel)
    (prompt t : String) :
    Event.routerCall t ∉ (call_llm_with_retry tag model prompt).2 := by
  rcases call_llm_events tag model prompt with h | h <;> simp [h]

theorem call_llm_no_rerankCall (tag : String) (model : Option LLMModel)
    (prompt : String) :
    Event.rerankCall ∉ (call_llm_with_retry tag model prompt).2 := by
  rcases call_llm_events tag model prompt with h | h <;> simp [h]

theorem call_llm_no_toolRun (tag : String) (model : Option LLMModel)
    (prompt t : String) :
    Event.toolRun t ∉ (call_llm_with_retry tag model prompt).2 := by
  rcases call_llm_events tag model prompt with h | h <;> simp [h]

theorem stepRest_no_routerCall (o : Oracles) (query : String) (qm : QueryMetadata)
    (tp : List ToolPlanItem) (fr : List ToolResult) (kg : Bool) (t : String) :
    Event.routerCall t ∉ (stepRest o query qm tp fr kg).2 := by
  unfold stepRest
  by_cases hdocs : (collectDocs fr).isEmpty = true
  · rw [if_pos hdocs]
    simp [M.pure]
  · rw [if_neg hdocs]
    apply M.bind_events_subset
    · by_cases hkg : (!kg) = true
      · rw [if_pos hkg]
        exact rerank_no_routerCall o query (collectDocs fr) t
      · rw [if_neg hkg]
        simp [M.pure]
    · intro ranked
      by_cases hrd : ranked.isEmpty = true
      · rw [if_pos hrd]
        simp [M.pure]
      · rw [if_neg hrd]
        apply M.bind_events_subset
        · exact call_llm_no_routerCall _ _ _ _
        · intro a
          cases a with
          | none => simp [M.throw]
          | some ans =>
            by_cases hint : qm.intent = "simple_summary"
            · simp [hint, M.pure]
            · cases happ : appendReferences ans (ranked.filterMap citationPart) with
              | error m => simp [hint, happ, M.throw]
              | ok fin => simp [hint, happ, M.pure]

theorem stepRest_kg_no_rerank (o : Oracles) (query : String) (qm : QueryMetadata)
    (tp : List ToolPlanItem) (fr : List ToolResult) :
    Event.rerankCall ∉ (stepRest o query qm tp fr true).2 := by
  unfold stepRest
  by_cases hdocs : (collectDocs fr).isEmpty = true
  · rw [if_pos hdocs]
    simp [M.pure]
  · rw [if_neg hdocs]
    apply M.bind_events_subset
    · rw [if_neg (by decide : ¬ ((!true) = true))]
      simp [M.pure]
    · intro ranked
      by_cases hrd : ranked.isEmpty = true
      · rw [if_pos hrd]
        simp [M.pure]
      · rw [if_neg hrd]
        apply M.bind_events_subset
        · exact call_llm_no_rerankCall _ _ _
        · intro a
          cases a with
          | none => simp [M.throw]
          | some ans =>
            by_cases hint : qm.intent = "simple_summary"
            · simp [hint, M.pure]
            · cases happ : appendReferences ans (ranked.filterMap citationPart) with
              | error m => simp [hint, happ, M.throw]
              | ok fin => simp [hint, happ, M.pure]

theorem query_classify_events (o : Oracles) (q : String) :
    (QueryClassifier.classify o q).2 = [] ∨
    (QueryClassifier.classify o q).2 =
      [Event.llmCall "classifier" (classifierPrompt q)] := by
  rw [query_classify_eq]
  cases ho : o.classifierLLM with
  | none => left; rfl
  | some f =>
    right
    dsimp only
    cases hf : f (classifierPrompt q) with
    | ok t => simp only [hf]
    | error e => simp only [hf]

theorem execute_tool_events (reg : String → Option ToolFn) (nm q : String)
    (qm : QueryMetadata) :
    (ToolRouter.execute_tool ⟨reg⟩ nm q qm).2 = [Event.routerCall nm] ∨
    (ToolRouter.execute_tool ⟨reg⟩ nm q qm).2 =
      [Event.routerCall nm, Event.toolRun nm] := by
  rw [execute_tool_eq]
  cases reg nm with
  | none => left; rfl
  | some f =>
    right
    dsimp only
    cases hf : f q qm <;> simp only [hf]

theorem kgPhase_routerCall_only_kg (o : Oracles) (query : String)
    (meta : QueryMetadata) (tp : List ToolPlanItem) (t : String)
    (ht : t ≠ "query_knowledge_graph") :
    Event.routerCall t ∉ (kgPhase o query meta tp).2 := by
  unfold kgPhase
  split
  · apply M.bind_events_subset
    · rcases execute_tool_events (standardRegistry o) "query_knowledge_graph" query meta
        with h | h <;> simp [h, ht]
    · intro kg_result
      simp [M.pure]
  · simp [M.pure]

theorem kgPhase_no_rerank (o : Oracles) (query : String) (meta : QueryMetadata)
    (tp : List ToolPlanItem) :
    Event.rerankCall ∉ (kgPhase o query meta tp).2 := by
  unfold kgPhase
  split
  · apply M.bind_events_subset
    · rcases execute_tool_events (standardRegistry o) "query_knowledge_graph" query meta
        with h | h <;> simp [h]
    · intro kg_result
      simp [M.pure]
  · simp [M.pure]

/-- No tool other than the knowledge-graph tool and "vector_search" is ever
dispatched by a single-step retrieval, whatever the plan contains. -/
theorem step_routerCall_subset (o : Oracles) (query persona t : String)
    (ht1 : t ≠ "query_knowledge_graph") (ht2 : t ≠ "vector_search") :
    Event.routerCall t ∉ (Agent.run_single_rag_step o query persona).2 := by
  unfold Agent.run_single_rag_step
  apply M.bind_events_subset
  · rcases query_classify_events o query with h | h <;> simp [h]
  · intro qm?
    cases qm? with
    | none => simp [M.pure]
    | some meta =>
      dsimp only
      by_cases hpe : ((agentPlanner o).plan meta persona).isEmpty = true
      · rw [if_pos hpe]
        simp [M.pure]
      · rw [if_neg hpe]
        apply M.bind_events_subset
        · exact kgPhase_routerCall_only_kg o query meta _ t ht1
        · intro kg
          apply M.bind_events_subset
          · by_cases hvec : (!kg.2 && ((agentPlanner o).plan meta persona).any
                (fun x => x.tool_name == "vector_search")) = true
            · rw [if_pos hvec]
              apply M.bind_events_subset
              · rcases execute_tool_events (standardRegistry o) "vector_search" query meta
                  with h | h <;> simp [h, ht2]
              · intro vr
                simp [M.pure]
            · rw [if_neg hvec]
              simp [M.pure]
          · intro fr
            exact stepRest_no_routerCall o query meta _ fr kg.2 t

theorem query_classify_value (o : Oracles) (query : String) (cf : LLMModel)
    (ct : String) (meta : QueryMetadata)
    (hc1 : o.classifierLLM = some cf)
    (hc2 : cf (classifierPrompt query) = Except.ok ct)
    (hc3 : o.classifierParse ct = some meta) :
    QueryClassifier.classify o query =
      (MRes.ok (some meta), [Event.llmCall "classifier" (classifierPrompt query)]) := by
  rw [query_classify_eq, hc1]
  dsimp only
  rw [hc2]
  dsimp only
  rw [hc3]

theorem kgPhase_golden (o : Oracles) (query : String) (meta : QueryMetadata)
    (tp : List ToolPlanItem) (r : ToolResult)
    (hg : meta.question_is_graph_suitable = true)
    (hplan : tp.any (fun x => x.tool_name == "query_knowledge_graph") = true)
    (hkg : o.query_knowledge_graph query meta = Except.ok r)
    (hr : r.success = true)
    (hlen : 10 < (pyStrip r.content).length) :
    kgPhase o query meta tp =
      (MRes.ok ([r], true),
       [Event.routerCall "query_knowledge_graph",
        Event.toolRun "query_knowledge_graph"]) := by
  have hcne : (r.content != "") = true := by
    rw [bne_iff_ne]
    intro h
    rw [h] at hlen
    simp [pyStrip, String.length] at hlen
  unfold kgPhase
  rw [if_pos (by rw [hg, hplan]; rfl)]
  rw [execute_tool_eq]
  have hreg : standardRegistry o "query_knowledge_graph" = some o.query_knowledge_graph :=
    rfl
  rw [hreg]
  dsimp only
  rw [hkg]
  dsimp only
  rw [M.bind_mk_ok]
  simp [M.pure, hr, hcne, hlen]

/-- The trajectory of the single step on a golden graph answer: the classifier
model call, the graph dispatch and run, then the post-tool tail with the
short-circuit flag set. -/
theorem step_kg_golden (o : Oracles) (query persona : String) (cf : LLMModel)
    (ct : String) (meta : QueryMetadata) (r : ToolResult)
    (hc1 : o.classifierLLM = some cf)
    (hc2 : cf (classifierPrompt query) = Except.ok ct)
    (hc3 : o.classifierParse ct = some meta)
    (hg : meta.question_is_graph_suitable = true)
    (hplan : ((agentPlanner o).plan meta persona).any
        (fun x => x.tool_name == "query_knowledge_graph") = true)
    (hkg : o.query_knowledge_graph query meta = Except.ok r)
    (hr : r.success = true)
    (hlen : 10 < (pyStrip r.content).length) :
    Agent.run_single_rag_step o query persona =
      ((stepRest o query meta ((agentPlanner o).plan meta persona) [r] true).1,
       Event.llmCall "classifier" (classifierPrompt query) ::
       Event.routerCall "query_knowledge_graph" ::
       Event.toolRun "query_knowledge_graph" ::
       (stepRest o query meta ((agentPlanner o).plan meta persona) [r] true).2) := by
  have hpe : ((agentPlanner o).plan meta persona).isEmpty = false := by
    cases hp : (agentPlanner o).plan meta persona with
    | nil => rw [hp] at hplan; simp at hplan
    | cons a l => rfl
  unfold Agent.run_single_rag_step
  rw [query_classify_value o query cf ct meta hc1 hc2 hc3, M.bind_mk_ok]
  dsimp only
  rw [hpe]
  simp only [Bool.false_eq_true, if_false]
  rw [kgPhase_golden o query meta _ r hg hplan hkg hr hlen, M.bind_mk_ok]
  dsimp only
  rw [if_neg (by simp)]
  simp [M.pure, M.bind_mk_ok]

/-- C3: when the metadata marks the query graph-suitable, the plan contains the
knowledge-graph tool, and the graph tool returns success with whitespace-
stripped content longer than 10 characters, the single step never dispatches
"vector_search" and never enters the reranker. -/
theorem graph_short_circuit (o : Oracles) (query persona : String) (cf : LLMModel)
    (ct : String) (meta : QueryMetadata) (r : ToolResult)
    (hc1 : o.classifierLLM = some cf)
    (hc2 : cf (classifierPrompt query) = Except.ok ct)
    (hc3 : o.classifierParse ct = some meta)
    (hg : meta.question_is_graph_suitable = true)
    (hplan : ((agentPlanner o).plan meta persona).any
        (fun x => x.tool_name == "query_knowledge_graph") = true)
    (hkg : o.query_knowledge_graph query meta = Except.ok r)
    (hr : r.success = true)
    (hlen : 10 < (pyStrip r.content).length) :
    Event.routerCall "vector_search" ∉ (Agent.run_single_rag_step o query persona).2 ∧
    Event.rerankCall ∉ (Agent.run_single_rag_step o query persona).2 := by
  rw [step_kg_golden o query persona cf ct meta r hc1 hc2 hc3 hg hplan hkg hr hlen]
  constructor
  · simp only [List.mem_cons, not_or]
    refine ⟨by simp, by simp, by simp, ?_⟩
    exact stepRest_no_routerCall o query meta _ [r] true "vector_search"
  · simp only [List.mem_cons, not_or]
    refine ⟨by simp, by simp, by simp, ?_⟩
    exact stepRest_kg_no_rerank o query meta _ [r]

/-- Concrete oracle for the C3 witness: graph-suitable fact lookup, a default
persona table planning only the graph tool, and a graph backend returning a
long successful fact. -/
def oC3 : Oracles :=
  { baseOracles with
    classifierLLM := some fun _ => Except.ok "cls-resp"
    classifierParse := fun _ => some ⟨"specific_fact_lookup", [], true, []⟩
    synthesisLLM := some fun _ => Except.ok "ESKETAMINE is sponsored by X [1]."
    rerankerLLM := some fun _ => Except.ok "[0]"
    query_knowledge_graph := fun _ _ =>
      Except.ok ⟨"query_knowledge_graph", true,
        "Evidence from graph: ESKETAMINE sponsored by X.\nCitation: LK1", 0⟩
    personaMap := fun k =>
      if k = "default" then some [⟨"query_knowledge_graph", 1⟩] else none }

/-- Witness for C3 on a concrete golden-graph scenario. -/
theorem graph_short_circuit_witness :
    Event.routerCall "vector_search" ∉
      (Agent.run_single_rag_step oC3 "Who sponsors Esketamine?" "regulatory_specialist").2 ∧
    Event.rerankCall ∉
      (Agent.run_single_rag_step oC3 "Who sponsors Esketamine?" "regulatory_specialist").2 :=
  graph_short_circuit oC3 "Who sponsors Esketamine?" "regulatory_specialist"
    (fun _ => Except.ok "cls-resp") "cls-resp" ⟨"specific_fact_lookup", [], true, []⟩
    ⟨"query_knowledge_graph", true,
      "Evidence from graph: ESKETAMINE sponsored by X.\nCitation: LK1", 0⟩
    rfl rfl rfl rfl (by with_unfolding_all decide) rfl rfl (by decide)

/-! ## C5 (corrected): which planned tools actually run -/

/-- The four ways a single step fails to obtain a definitive ("golden")
knowledge-graph answer. -/
def notDefinitive (o : Oracles) (query : String) (meta : QueryMetadata)
    (tp : List ToolPlanItem) : Prop :=
  meta.question_is_graph_suitable = false ∨
  tp.any (fun x => x.tool_name == "query_knowledge_graph") = false ∨
  (∃ e, o.query_knowledge_graph query meta = Except.error e) ∨
  (∃ r, o.query_knowledge_graph query meta = Except.ok r ∧
    (r.success = false ∨ r.content = "" ∨ (pyStrip r.content).length ≤ 10))

/-- Without a definitive graph answer the kg phase always ends with the
short-circuit flag off. -/
theorem kgPhase_not_definitive (o : Oracles) (query : String) (meta : QueryMetadata)
    (tp : List ToolPlanItem) (hnd : notDefinitive o query meta tp) :
    ∃ fr0 evs0, kgPhase o query meta tp = (MRes.ok (fr0, false), evs0) := by
  unfold kgPhase
  by_cases hcond : (meta.question_is_graph_suitable
      && tp.any (fun x => x.tool_name == "query_knowledge_graph")) = true
  · rw [if_pos hcond]
    rw [execute_tool_eq]
    have hreg : standardRegistry o "query_knowledge_graph" =
        some o.query_knowledge_graph := rfl
    rw [hreg]
    dsimp only
    rcases hnd with hg | hp | ⟨e, hkg⟩ | ⟨r, hkg, hbad⟩
    · rw [hg] at hcond; simp at hcond
    · rw [hp] at hcond; simp at hcond
    · rw [hkg]
      dsimp only
      rw [M.bind_mk_ok]
      exact ⟨_, _, rfl⟩
    · rw [hkg]
      dsimp only
      rw [M.bind_mk_ok]
      have hflag : (r.success && r.content != ""
          && decide (10 < (pyStrip r.content).length)) = false := by
        rcases hbad with h | h | h
        · simp [h]
        · simp [h]
        · simp [decide_eq_false (by omega : ¬ 10 < (pyStrip r.content).length)]
      refine ⟨[r], [Event.routerCall "query_knowledge_graph",
        Event.toolRun "query_knowledge_graph"], ?_⟩
      simp [M.pure, hflag]
  · rw [if_neg hcond]
    exact ⟨[], [], rfl⟩

/-- Counterexample to C5 as stated: a concrete run in which the plan contains
retrieve_general_text (indeed ranks it first) and no definitive graph answer
exists, yet the step never dispatches retrieve_general_text to the router —
the only fallback the code knows is the name "vector_search". -/
theorem planned_tools_not_all_executed_cex :
    (((agentPlanner
        { baseOracles with
          classifierLLM := some fun _ => Except.ok "cls-resp"
          classifierParse := fun _ => some ⟨"general_qa", [], false, []⟩
          personaMap := fun k =>
            if k = "default" then some [⟨"retrieve_general_text", 1⟩] else none }).plan
        ⟨"general_qa", [], false, []⟩ "health_economist").any
      (fun x => x.tool_name == "retrieve_general_text") = true) ∧
    Event.routerCall "retrieve_general_text" ∉
      (Agent.run_single_rag_step
        { baseOracles with
          classifierLLM := some fun _ => Except.ok "cls-resp"
          classifierParse := fun _ => some ⟨"general_qa", [], false, []⟩
          personaMap := fun k =>
            if k = "default" then some [⟨"retrieve_general_text", 1⟩] else none }
        "What changed in the latest agenda?" "health_economist").2 := by
  constructor
  · with_unfolding_all decide
  · with_unfolding_all decide

/-- C5 amended: in a single-step retrieval no tool other than
"query_knowledge_graph" and "vector_search" is ever dispatched, whatever the
plan contains; and when classification succeeds, no definitive graph answer is
obtained and the plan contains a "vector_search" item, the vector-search tool
is dispatched. -/
theorem single_step_only_vector_fallback (o : Oracles) (query persona t : String)
    (ht1 : t ≠ "query_knowledge_graph") (ht2 : t ≠ "vector_search") :
    Event.routerCall t ∉ (Agent.run_single_rag_step o query persona).2 ∧
    (∀ (cf : LLMModel) (ct : String) (meta : QueryMetadata),
      o.classifierLLM = some cf →
      cf (classifierPrompt query) = Except.ok ct →
      o.classifierParse ct = some meta →
      notDefinitive o query meta ((agentPlanner o).plan meta persona) →
      ((agentPlanner o).plan meta persona).any
        (fun x => x.tool_name == "vector_search") = true →
      Event.routerCall "vector_search" ∈ (Agent.run_single_rag_step o query persona).2) := by
  constructor
  · exact step_routerCall_subset o query persona t ht1 ht2
  · intro cf ct meta hc1 hc2 hc3 hnd hvec
    have hpe : ((agentPlanner o).plan meta persona).isEmpty = false := by
      cases hp : (agentPlanner o).plan meta persona with
      | nil => rw [hp] at hvec; simp at hvec
      | cons a l => rfl
    rcases kgPhase_not_definitive o query meta _ hnd with ⟨fr0, evs0, hkg⟩
    unfold Agent.run_single_rag_step
    rw [query_classify_value o query cf ct meta hc1 hc2 hc3, M.bind_mk_ok]
    dsimp only
    rw [hpe]
    simp only [Bool.false_eq_true, if_false]
    rw [hkg, M.bind_mk_ok]
    dsimp only
    rw [if_pos (by simp [hvec])]
    simp only [List.mem_append, List.mem_singleton]
    right; right
    apply M.bind_events_mem
    apply M.bind_events_mem
    rcases execute_tool_events (standardRegistry o) "vector_search" query meta
      with h | h <;> rw [h] <;> simp

/-- Concrete oracle for the C5 witness: not graph-suitable, the plan ranks
"vector_search" (via a persona table entry) and the vector backend answers. -/
def oC5 : Oracles :=
  { baseOracles with
    classifierLLM := some fun _ => Except.ok "cls-resp"
    classifierParse := fun _ => some ⟨"general_qa", [], false, []⟩
    personaMap := fun k =>
      if k = "default" then some [⟨"vector_search", 1⟩] else none }

/-- Witness for the amended C5: with no definitive graph answer and
"vector_search" planned, the step dispatches exactly the vector tool and no
other retrieval name. -/
theorem single_step_only_vector_fallback_witness :
    Event.routerCall "retrieve_clinical_data" ∉
      (Agent.run_single_rag_step oC5 "q" "p").2 ∧
    Event.routerCall "vector_search" ∈ (Agent.run_single_rag_step oC5 "q" "p").2 :=
  ⟨(single_step_only_vector_fallback oC5 "q" "p" "retrieve_clinical_data"
      (by decide) (by decide)).1,
   (single_step_only_vector_fallback oC5 "q" "p" "retrieve_clinical_data"
      (by decide) (by decide)).2
     (fun _ => Except.ok "cls-resp") "cls-resp" ⟨"general_qa", [], false, []⟩
     rfl rfl rfl (Or.inl rfl) (by with_unfolding_all decide)⟩

/-! ## C2: the outer fault boundary of Agent.run -/

/-- C2: for every oracle behaviour, Agent.run returns a string determined by a
three-way case split on its body: the body's answer when no exception escapes,
the fixed high-traffic apology when a RetryError escapes (synthesis-call
exhaustion), and the fixed critical-error message when any other exception
escapes. No fourth outcome exists. -/
theorem run_total_outer_boundary (o : Oracles) (query persona : String)
    (chat_history : List String) :
    (∃ a evs, Agent.runBody o query persona chat_history = (MRes.ok a, evs) ∧
      Agent.run o query persona chat_history = a) ∨
    (∃ m evs, Agent.runBody o query persona chat_history =
        (MRes.exn (PyExn.retryError m), evs) ∧
      Agent.run o query persona chat_history = highTrafficMsg) ∨
    (∃ m evs, Agent.runBody o query persona chat_history =
        (MRes.exn (PyExn.other m), evs) ∧
      Agent.run o query persona chat_history = criticalErrorMsg) := by
  rcases hb : Agent.runBody o query persona chat_history with ⟨res, evs⟩
  cases res with
  | ok a =>
    refine Or.inl ⟨a, evs, rfl, ?_⟩
    unfold Agent.run
    rw [hb]
    rfl
  | exn e =>
    cases e with
    | retryError m =>
      refine Or.inr (Or.inl ⟨m, evs, rfl, ?_⟩)
      unfold Agent.run
      rw [hb]
      rfl
    | other m =>
      refine Or.inr (Or.inr ⟨m, evs, rfl, ?_⟩)
      unfold Agent.run
      rw [hb]
      rfl

/-! ## C10: pinned persona screens off the classifier -/

theorem M.bind_fst_congr {α β : Type} (m : M α) (k k2 : α → M β)
    (h : ∀ a, (k a).1 = (k2 a).1) : (M.bind m k).1 = (M.bind m k2).1 := by
  unfold M.bind
  cases m.1 <;> simp [h]

theorem outerBoundary_fst (m1 m2 : M String) (h : m1.1 = m2.1) :
    outerBoundary m1 = outerBoundary m2 := by
  rcases m1 with ⟨r1, e1⟩
  rcases m2 with ⟨r2, e2⟩
  simp only at h
  subst h
  cases r1 with
  | ok a => rfl
  | exn e => cases e <;> rfl

theorem persona_classify_is_ok (o : Oracles) (q : String) :
    ∃ k evs, PersonaClassifier.classify o q = (MRes.ok k, evs) := by
  rw [persona_classify_eq]
  cases ho : o.personaLLM with
  | none => exact ⟨"regulatory_specialist", [], rfl⟩
  | some f =>
    cases hf : f (PERSONA_CLASSIFICATION_PROMPT_fmt q) with
    | ok t =>
      refine ⟨if PERSONA_KEYS.contains (pyStrip t) then pyStrip t
              else "regulatory_specialist",
        [Event.llmCall "persona" (PERSONA_CLASSIFICATION_PROMPT_fmt q)], ?_⟩
      dsimp only
      rw [hf]
    | error e =>
      refine ⟨"regulatory_specialist",
        [Event.llmCall "persona" (PERSONA_CLASSIFICATION_PROMPT_fmt q)], ?_⟩
      dsimp only
      rw [hf]

/-- With a pinned persona, the body of run is insensitive to the classifier's
returned key: the key flows only into the chosen persona, which the pin
overrides, and into the banner, which the pin suppresses. -/
theorem runBodyRest_key_irrel (o : Oracles) (persona : String)
    (chat_history : List String) (rq k1 k2 : String) (hp : persona ≠ "automatic") :
    Agent.runBodyRest o persona chat_history rq k1 =
      Agent.runBodyRest o persona chat_history rq k2 := by
  unfold Agent.runBodyRest
  simp only [if_neg hp]

theorem rag_step_personaLLM_irrel (o : Oracles) (x : Option LLMModel) (q p : String) :
    Agent.run_single_rag_step { o with personaLLM := x } q p =
      Agent.run_single_rag_step o q p := rfl

theorem singleStepPath_personaLLM_irrel (o : Oracles) (x : Option LLMModel)
    (p cp d : String) (pv : PlanValue) :
    singleStepPath { o with personaLLM := x } p cp d pv =
      singleStepPath o p cp d pv := rfl

theorem runSubSteps_personaLLM_irrel (o : Oracles) (x : Option LLMModel)
    (p : String) (l : List String) :
    runSubSteps { o with personaLLM := x } p l = runSubSteps o p l := by
  induction l with
  | nil => rfl
  | cons q qs ih =>
      unfold runSubSteps
      rw [rag_step_personaLLM_irrel o x q p, ih]

theorem multiStepPath_personaLLM_irrel (o : Oracles) (x : Option LLMModel)
    (p cp d rq : String) (qs : List String) :
    multiStepPath { o with personaLLM := x } p cp d rq qs =
      multiStepPath o p cp d rq qs := by
  dsimp only [multiStepPath]
  rw [runSubSteps_personaLLM_irrel o x cp]

theorem runBodyRest_personaLLM_irrel (o : Oracles) (x : Option LLMModel)
    (p rq k : String) (ch : List String) :
    Agent.runBodyRest { o with personaLLM := x } p ch rq k =
      Agent.runBodyRest o p ch rq k := by
  simp only [Agent.runBodyRest, singleStepPath_personaLLM_irrel,
    multiStepPath_personaLLM_irrel]

theorem runBody_fst_pinned (o : Oracles) (x : Option LLMModel)
    (query persona : String) (chat_history : List String)
    (hp : persona ≠ "automatic") :
    (Agent.runBody { o with personaLLM := x } query persona chat_history).1 =
      (Agent.runBody o query persona chat_history).1 := by
  unfold Agent.runBody
  have hrw : QueryRewriter.rewrite { o with personaLLM := x } query chat_history =
      QueryRewriter.rewrite o query chat_history := rfl
  rw [hrw]
  apply M.bind_fst_congr
  intro rq
  have hrest : ∀ k, Agent.runBodyRest { o with personaLLM := x } persona
      chat_history rq k = Agent.runBodyRest o persona chat_history rq k :=
    fun k => runBodyRest_personaLLM_irrel o x persona rq k chat_history
  rcases persona_classify_is_ok { o with personaLLM := x } rq with ⟨k1, e1, h1⟩
  rcases persona_classify_is_ok o rq with ⟨k2, e2, h2⟩
  rw [h1, h2, M.bind_mk_ok, M.bind_mk_ok]
  dsimp only
  rw [hrest k1, runBodyRest_key_irrel o persona chat_history rq k1 k2 hp]

/-- C10: when the caller pins a concrete persona, the answer of Agent.run is
independent of the persona classifier: replacing the persona model handle
(hence the classifier's output) by anything whatsoever leaves the returned
answer unchanged. -/
theorem pinned_persona_independent_of_classifier (o : Oracles) (x : Option LLMModel)
    (query persona : String) (chat_history : List String)
    (hp : persona ≠ "automatic") :
    Agent.run { o with personaLLM := x } query persona chat_history =
      Agent.run o query persona chat_history := by
  unfold Agent.run
  exact outerBoundary_fst _ _ (runBody_fst_pinned o x query persona chat_history hp)

/-- Witness for C10: pinning "clinical_analyst" while swapping the persona
model between a handle that classifies differently and a missing handle leaves
the answer identical. -/
theorem pinned_persona_independent_of_classifier_witness :
    Agent.run { oC3 with personaLLM := some fun _ => Except.ok "health_economist" }
        "Who sponsors Esketamine?" "clinical_analyst" [] =
      Agent.run oC3 "Who sponsors Esketamine?" "clinical_analyst" [] :=
  pinned_persona_independent_of_classifier oC3
    (some fun _ => Except.ok "health_economist")
    "Who sponsors Esketamine?" "clinical_analyst" [] (by decide)
